import Mathlib

/-!
Verification of the drivetest tag-extraction question-bank core.

This file gives a shallow embedding, in Lean 4, of the parts of the
repository that the specification talks about:

* `src/qb/question.py` — the legacy `Question` dataclass and its
  `_check_format` validation (namespace `Qb`);
* `src/qb/question_bank.py` — the legacy `QuestionBank` (namespace `Qb`);
* `src/entities/question_bank.py` — the pydantic `QuestionBank`
  (namespace `Entities`);
* `src/entities/question.py` — absent from the source tree; modelled
  from the specification (namespace `Entities`);
* `src/data_access/local_json_db.py` — the JSON persistence layer
  (namespace `DataAccess`);
* `src/data_formatting/img_reshaper.py` and
  `src/data_cleaning/img_reshaper.py` — the image canvas-fitting
  algorithm (namespaces `DataFormatting` and `DataCleaning`).

Python dictionaries are embedded as insertion-ordered association
lists, Python sets as `Finset`, raised exceptions as `Except` /
`Option` error values, and the filesystem as an explicit list of
existing paths.
-/

/-- Python exception values, carrying the exception class and message. -/
inductive PyErr where
  | valueError (msg : String)
  | keyError (msg : String)
  | lookupError (msg : String)
  | typeError (msg : String)
  | fileNotFoundError (msg : String)
  | connectionError (msg : String)
  | attributeError (msg : String)
  | incorrectFormatError (msg : String)
  | invalidLabelError (msg : String)
  deriving DecidableEq

/-- The `str(e)` of an exception: its message. -/
def PyErr.msg : PyErr → String
  | .valueError m => m
  | .keyError m => m
  | .lookupError m => m
  | .typeError m => m
  | .fileNotFoundError m => m
  | .connectionError m => m
  | .attributeError m => m
  | .incorrectFormatError m => m
  | .invalidLabelError m => m

/-- `d[k]` lookup in a Python dict modelled as an association list. -/
def dget {K V : Type} [DecidableEq K] : List (K × V) → K → Option V
  | [], _ => none
  | (k, v) :: rest, key => if k = key then some v else dget rest key

/-- `k in d` for a Python dict. -/
def dmem {K V : Type} [DecidableEq K] (d : List (K × V)) (k : K) : Bool :=
  (dget d k).isSome

/-- `d[k] = v` assignment on a Python dict: replaces in place if the key is
present (keeping its position), otherwise appends. -/
def dset {K V : Type} [DecidableEq K] : List (K × V) → K → V → List (K × V)
  | [], key, v => [(key, v)]
  | (k, w) :: rest, key, v =>
      if k = key then (k, v) :: rest else (k, w) :: dset rest key v

/-- In-place mutation of the value stored at a key (e.g. Python
`d[k].add(x)`): applies `f` to the value bound to `key`, if any. -/
def dupd {K V : Type} [DecidableEq K] : List (K × V) → K → (V → V) → List (K × V)
  | [], _, _ => []
  | (k, v) :: rest, key, f =>
      if k = key then (k, f v) :: rest else (k, v) :: dupd rest key f

/-- Truthiness of `s.strip()` in Python: `not s.strip()` holds exactly when
every character of `s` is whitespace. -/
def pyBlank (s : String) : Bool :=
  s.data.all (fun c => c.isWhitespace)

namespace Qb

/-- An arbitrary Python value passed for an argument whose type matters to
validation only through `isinstance(·, str)` and string truthiness:
`None`, a string, or any other object. -/
inductive PyArg where
  | pyNone
  | pyStr (s : String)
  | pyOther
  deriving DecidableEq

/-- `isinstance(x, str)`. -/
def PyArg.isStr : PyArg → Bool
  | .pyStr _ => true
  | _ => false

/-- The string carried by a `pyStr` value (irrelevant default otherwise,
only read under `isStr`). -/
def PyArg.strVal : PyArg → String
  | .pyStr s => s
  | _ => ""

/-- `Question._check_format` from `src/qb/question.py` (lines 37-62).

Domain of the embedding: per the constructor signature, `answers` is a
Python `set` of strings and `correct_answer` a `str`, so the
`isinstance(self._answers, set)` and `isinstance(self._correct_answer, str)`
halves of those checks always pass here; `qid`, `question` and `img_path`
range over arbitrary Python values via `PyArg`.  `IncorrectFormatError`
is a `TypeError` subclass carrying the shown message. -/
def check_format (qid question : PyArg) (answers : Finset String)
    (correct_answer : String) (img_path : PyArg) : Except PyErr Unit :=
  if ¬ qid.isStr ∨ qid.strVal = "" then
    .error (.incorrectFormatError "Question ID must be a non-empty string.")
  else if ¬ question.isStr ∨ question.strVal = "" then
    .error (.incorrectFormatError "Question text must be a non-empty string.")
  else if answers.card < 2 then
    .error (.incorrectFormatError "There must be at least two answers.")
  else if "" ∈ answers then
    .error (.incorrectFormatError "Answers cannot contain empty strings.")
  else if correct_answer ∉ answers then
    .error (.incorrectFormatError "Correct answer must be one of the provided answers.")
  else if img_path ≠ .pyNone ∧ ¬ img_path.isStr then
    .error (.incorrectFormatError "Image path must be a string or None.")
  else
    .ok ()

/-- The validation outcome as the specification describes it: report the
first violation found, in the fixed order qid → question → answers-count →
empty-answer → correct-answer-membership → img_path-type, raising a single
`IncorrectFormatError`; succeed when no condition is violated. -/
def specValidationOutcome (qid question : PyArg) (answers : Finset String)
    (correct_answer : String) (img_path : PyArg) : Except PyErr Unit :=
  if qid.strVal = "" ∨ ¬ qid.isStr then
    .error (.incorrectFormatError "Question ID must be a non-empty string.")
  else if question.strVal = "" ∨ ¬ question.isStr then
    .error (.incorrectFormatError "Question text must be a non-empty string.")
  else if answers.card < 2 then
    .error (.incorrectFormatError "There must be at least two answers.")
  else if "" ∈ answers then
    .error (.incorrectFormatError "Answers cannot contain empty strings.")
  else if correct_answer ∉ answers then
    .error (.incorrectFormatError "Correct answer must be one of the provided answers.")
  else if img_path ≠ .pyNone ∧ ¬ img_path.isStr then
    .error (.incorrectFormatError "Image path must be a string or None.")
  else
    .ok ()

end Qb


namespace Qb

/-- Value content of the legacy `Question` dataclass
(`src/qb/question.py`): qid, text, answer set, correct answer, optional
image path, tags, and the denormalized chapter pair (`None` default
modelled as `none`). -/
structure Question where
  qid : String
  question : String
  answers : Finset String
  correct_answer : String
  img_path : Option String
  tags : List String
  chapter : Option (Int × String)
  deriving DecidableEq

/-- A heap of Python container objects, used to observe aliasing between
a `Question`, the containers it owns, and the containers its accessors
return.  Set objects and list objects live at `Nat` references. -/
structure ObjHeap where
  sets : List (Nat × Finset String)
  lists : List (Nat × List String)
  deriving DecidableEq

/-- A `Question` object as it lives on the heap: its `_answers` and
`_tags` attributes are references to container objects. -/
structure QuestionObj where
  answersRef : Nat
  tagsRef : Nat
  deriving DecidableEq

/-- The reference a fresh list object is allocated at: one past every
allocated list reference. -/
def ObjHeap.freshList (σ : ObjHeap) : Nat :=
  (σ.lists.map Prod.fst).foldr max 0 + 1

/-- `Question.get_answers` (`src/qb/question.py` lines 80-86):
`return self._answers` — hands back the internal set object itself
(the same reference), allocating nothing. -/
def QuestionObj.get_answers (_ : ObjHeap) (q : QuestionObj) : Nat :=
  q.answersRef

/-- `Question.get_tags` (`src/qb/question.py` lines 130-136):
`return self._tags.copy()` — allocates a fresh list object holding a
copy of the internal contents and returns the new reference. -/
def QuestionObj.get_tags (σ : ObjHeap) (q : QuestionObj) : ObjHeap × Nat :=
  let r := σ.freshList
  ({ σ with lists := (r, (dget σ.lists q.tagsRef).getD []) :: σ.lists }, r)

/-- Caller-side `s.add(x)` on the set object behind reference `r`. -/
def ObjHeap.setAdd (σ : ObjHeap) (r : Nat) (x : String) : ObjHeap :=
  { σ with sets := dupd σ.sets r (insert x) }

/-- Caller-side `l.append(x)` on the list object behind reference `r`. -/
def ObjHeap.listAppend (σ : ObjHeap) (r : Nat) (x : String) : ObjHeap :=
  { σ with lists := dupd σ.lists r (fun l => l ++ [x]) }

/-- The legacy `QuestionBank` of `src/qb/question_bank.py`. -/
structure QuestionBank where
  _ids : Finset String
  _chapters : List (Int × String)
  _chap_num_to_ids : List (Int × Finset String)
  _id_to_q : List (String × Question)
  _img_dir : String
  deriving DecidableEq

/-- `QuestionBank.__init__` (`src/qb/question_bank.py` lines 16-26). -/
def QuestionBank.init (img_dir : String) : QuestionBank :=
  { _ids := ∅, _chapters := [], _chap_num_to_ids := [], _id_to_q := [],
    _img_dir := img_dir }

/-- `QuestionBank.add_chapter` (`src/qb/question_bank.py` lines 27-39):
raises `ValueError` when the chapter number already exists, otherwise
records the description and an empty membership set. -/
def QuestionBank.add_chapter (qb : QuestionBank) (chapter_num : Int)
    (description : String) : QuestionBank × Option PyErr :=
  if dmem qb._chapters chapter_num then
    (qb, some (.valueError ("Chapter " ++ toString chapter_num ++ " already exists")))
  else
    ({ qb with _chapters := dset qb._chapters chapter_num description,
               _chap_num_to_ids := dset qb._chap_num_to_ids chapter_num ∅ }, none)

/-- `QuestionBank.add_question` (`src/qb/question_bank.py` lines 41-51).
There is no chapter-existence check: `self._ids.add(qid)` runs first,
and `self._chap_num_to_ids[chapter_num].add(qid)` then raises `KeyError`
when the chapter is absent — at which point the qid is already and
permanently registered in `_ids`. -/
def QuestionBank.add_question (qb : QuestionBank) (question : Question)
    (chapter_num : Int) : QuestionBank × Option PyErr :=
  let qb1 := { qb with _ids := insert question.qid qb._ids }
  if dmem qb._chap_num_to_ids chapter_num then
    ({ qb1 with
        _chap_num_to_ids := dupd qb1._chap_num_to_ids chapter_num (insert question.qid),
        _id_to_q := dset qb1._id_to_q question.qid question }, none)
  else
    (qb1, some (.keyError (toString chapter_num)))

/-- `QuestionBank.question_count` with no argument: `len(self._ids)`. -/
def QuestionBank.question_count (qb : QuestionBank) : Nat :=
  qb._ids.card

/-- A concrete valid legacy question used in concrete instances. -/
def sampleQuestion : Question :=
  { qid := "q1", question := "x?", answers := {"a", "b"}, correct_answer := "a",
    img_path := none, tags := [], chapter := none }

/-- A freshly initialized legacy bank with no chapters. -/
def emptyLegacyBank : QuestionBank := QuestionBank.init "img"

/-- A concrete heap: one set object `{"a","b"}` at reference 0 and one
list object `["t"]` at reference 1. -/
def sampleHeap : ObjHeap := { sets := [(0, {"a", "b"})], lists := [(1, ["t"])] }

/-- A question object owning the two containers of `sampleHeap`. -/
def sampleQuestionObj : QuestionObj := { answersRef := 0, tagsRef := 1 }

end Qb


/-- `x in s` for a Python set modelled as a duplicate-free list. -/
def pyIn (x : String) (s : List String) : Bool := s.contains x

/-- `s.add(x)` on a Python set: a no-op when present, else the element
joins the set (appended, as the canonical enumeration order). -/
def pyAdd (s : List String) (x : String) : List String :=
  if x ∈ s then s else s ++ [x]

/-- `set(iterable)`: removes duplicates, keeping first occurrences as
the canonical enumeration order. -/
def pySet (l : List String) : List String := l.dedup

/-- Insert into a sorted list, for `sorted(...)`. -/
def insertSorted {α : Type} [LinearOrder α] (x : α) : List α → List α
  | [] => [x]
  | y :: rest => if x ≤ y then x :: y :: rest else y :: insertSorted x rest

/-- Python `sorted(...)`: insertion sort (stable; ascending). -/
def sortList {α : Type} [LinearOrder α] : List α → List α
  | [] => []
  | x :: rest => insertSorted x (sortList rest)

instance exceptDecEq {ε α : Type} [DecidableEq ε] [DecidableEq α] :
    DecidableEq (Except ε α)
  | .ok a, .ok b =>
      if h : a = b then isTrue (by rw [h]) else isFalse (by simp [h])
  | .ok _, .error _ => isFalse (by simp)
  | .error _, .ok _ => isFalse (by simp)
  | .error a, .error b =>
      if h : a = b then isTrue (by rw [h]) else isFalse (by simp [h])

namespace Entities

/-- Modelled from the spec: `entities/question.py` is imported by
`entities/question_bank.py`, `data_access/local_json_db.py` and the
entity tests but is not present under `src/`.  Per the specification
(§3, §4.1) a `Question` carries a qid, the question text, a set of
answers (a duplicate-free list here, in its canonical enumeration
order), the correct answer, an optional image path, `tags` and
`keywords` lists (empty by default), and a denormalized chapter pair. -/
structure Question where
  qid : String
  question : String
  answers : List String
  correct_answer : String
  img_path : Option String
  tags : List String
  keywords : List String
  chapter : Int × String
  deriving DecidableEq

/-- Modelled from the spec: construction validates, in order, qid
non-empty, question non-empty, at least two answers, no empty-string
answer, and membership of the correct answer, raising a single
`IncorrectFormatError` on the first violation (an `Option String`
image path is always of a valid type).  Tags and keywords start empty. -/
def Question.make (qid question : String) (answers : List String)
    (correct_answer : String) (img_path : Option String)
    (chapter : Int × String) : Except PyErr Question :=
  if qid = "" then
    .error (.incorrectFormatError "Question ID must be a non-empty string.")
  else if question = "" then
    .error (.incorrectFormatError "Question text must be a non-empty string.")
  else if answers.length < 2 then
    .error (.incorrectFormatError "There must be at least two answers.")
  else if "" ∈ answers then
    .error (.incorrectFormatError "Answers cannot contain empty strings.")
  else if correct_answer ∉ answers then
    .error (.incorrectFormatError "Correct answer must be one of the provided answers.")
  else
    .ok { qid := qid, question := question, answers := answers,
          correct_answer := correct_answer, img_path := img_path,
          tags := [], keywords := [], chapter := chapter }

/-- Modelled from the spec: labels (tags or keywords) must be unique and
non-empty after trimming; invalid entries raise `InvalidLabelError`. -/
def validLabels (l : List String) : Prop :=
  l.Nodup ∧ ∀ t ∈ l, pyBlank t = false

instance (l : List String) : Decidable (validLabels l) := by
  unfold validLabels; infer_instance

/-- Modelled from the spec: `set_tags` replaces the tags wholesale after
validating them. -/
def Question.set_tags (q : Question) (tags : List String) :
    Except PyErr Question :=
  if validLabels tags then .ok { q with tags := tags }
  else .error (.invalidLabelError "Tags must be unique non-empty strings.")

/-- Modelled from the spec: `set_keywords` replaces the keywords
wholesale after validating them. -/
def Question.set_keywords (q : Question) (keywords : List String) :
    Except PyErr Question :=
  if validLabels keywords then .ok { q with keywords := keywords }
  else .error (.invalidLabelError "Keywords must be unique non-empty strings.")

/-- The pydantic `QuestionBank` of `src/entities/question_bank.py`:
an image directory, the qid set, and the three dictionaries (sets as
duplicate-free lists in enumeration order).
(The pydantic validator requiring `img_dir` to exist as a directory is
filesystem setup, not modelled; `save` creates the directory before any
bank is reloaded from its output.) -/
structure QuestionBank where
  img_dir : String
  qids : List String
  chapters : List (Int × String)
  chap_num_to_ids : List (Int × List String)
  id_to_q : List (String × Question)
  deriving DecidableEq

/-- A freshly constructed bank: `QuestionBank(img_dir=...)` with every
collection at its default. -/
def QuestionBank.create (img_dir : String) : QuestionBank :=
  { img_dir := img_dir, qids := [], chapters := [], chap_num_to_ids := [],
    id_to_q := [] }

/-- `validate_chapters` (`src/entities/question_bank.py` lines 31-50):
first chapter with a non-positive number or a blank description raises
`ValueError`. -/
def validate_chapters : List (Int × String) → Option PyErr
  | [] => none
  | (n, d) :: rest =>
      if n ≤ 0 then
        some (.valueError ("Chapter number must be a positive integer: " ++ toString n))
      else if pyBlank d then
        some (.valueError ("Chapter description cannot be empty for chapter " ++ toString n))
      else validate_chapters rest

/-- `validate_chapter_consistency` (`src/entities/question_bank.py`
lines 67-78): the two chapter-keyed dicts must have the same keys, and
every qid in `qids` must belong to exactly one chapter's membership set. -/
def QuestionBank.validate_chapter_consistency (qb : QuestionBank) :
    Option PyErr :=
  if (qb.chap_num_to_ids.map Prod.fst).toFinset ≠ (qb.chapters.map Prod.fst).toFinset then
    some (.valueError "Chapter numbers must match")
  else
    match qb.qids.find?
        (fun qid => qb.chap_num_to_ids.countP (fun p => pyIn qid p.2) ≠ 1) with
    | some qid =>
        some (.valueError ("Question " ++ qid ++ " must belong to exactly one chapter"))
    | none => none

/-- `QuestionBank.add_chapter` (`src/entities/question_bank.py` lines
80-91).  The code inserts only when the number is absent and NEVER
raises on a duplicate — it silently keeps the existing description —
although its own docstring promises `ValueError` in that case.
`validate_chapters` then runs on the (possibly already mutated) dict:
the pair returned is (state after the call, exception raised if any). -/
def QuestionBank.add_chapter (qb : QuestionBank) (chapter_num : Int)
    (description : String) : QuestionBank × Option PyErr :=
  let qb1 :=
    if dmem qb.chapters chapter_num then qb
    else { qb with chapters := dset qb.chapters chapter_num description,
                   chap_num_to_ids := dset qb.chap_num_to_ids chapter_num [] }
  (qb1, validate_chapters qb1.chapters)

/-- `QuestionBank.add_question` (`src/entities/question_bank.py` lines
93-106): raises `KeyError` before any mutation when the chapter is
absent; otherwise registers the qid in `qids`, adds it to the chapter's
membership set in place, and stores/overwrites the `id_to_q` binding. -/
def QuestionBank.add_question (qb : QuestionBank) (question : Question)
    (chapter_num : Int) : QuestionBank × Option PyErr :=
  if ¬ dmem qb.chapters chapter_num then
    (qb, some (.keyError ("Chapter " ++ toString chapter_num ++ " does not exist")))
  else
    ({ qb with
        qids := pyAdd qb.qids question.qid,
        chap_num_to_ids := dupd qb.chap_num_to_ids chapter_num (fun s => pyAdd s question.qid),
        id_to_q := dset qb.id_to_q question.qid question }, none)

/-- `QuestionBank.get_question` (lines 108-120): `LookupError` when the
qid is unknown; a qid in `qids` but missing from `id_to_q` would be a
`KeyError` from the dict subscript. -/
def QuestionBank.get_question (qb : QuestionBank) (q_id : String) :
    Except PyErr Question :=
  if q_id ∈ qb.qids then
    match dget qb.id_to_q q_id with
    | some q => .ok q
    | none => .error (.keyError q_id)
  else .error (.lookupError ("Question " ++ q_id ++ " not found"))

/-- `QuestionBank.get_qids_by_chapter` (lines 122-134): checks
membership in `chapters`, then subscripts `chap_num_to_ids` and returns
a copy of the set. -/
def QuestionBank.get_qids_by_chapter (qb : QuestionBank) (chap_num : Int) :
    Except PyErr (List String) :=
  if dmem qb.chapters chap_num then
    match dget qb.chap_num_to_ids chap_num with
    | some s => .ok s
    | none => .error (.keyError (toString chap_num))
  else .error (.lookupError ("Chapter " ++ toString chap_num ++ " not found"))

/-- `QuestionBank.describe_chapter` (lines 136-148). -/
def QuestionBank.describe_chapter (qb : QuestionBank) (chap_num : Int) :
    Except PyErr String :=
  if dmem qb.chapters chap_num then
    match dget qb.chapters chap_num with
    | some d => .ok d
    | none => .error (.keyError (toString chap_num))
  else .error (.lookupError ("Chapter " ++ toString chap_num ++ " not found"))

/-- `QuestionBank.list_chapters` (lines 162-167):
`sorted(self.chapters.keys())`. -/
def QuestionBank.list_chapters (qb : QuestionBank) : List Int :=
  sortList (qb.chapters.map Prod.fst)

/-- `QuestionBank.get_qid_list` (lines 169-173): `sorted(self.qids)`. -/
def QuestionBank.get_qid_list (qb : QuestionBank) : List String :=
  sortList qb.qids

/-- `QuestionBank.question_count` (lines 175-183) with no argument:
`len(self.qids)`. -/
def QuestionBank.question_count (qb : QuestionBank) : Nat :=
  qb.qids.length

/-- `QuestionBank.question_count` with a chapter argument:
`len(self.chap_num_to_ids[chapter_num])`, a `KeyError` when absent. -/
def QuestionBank.question_count_chapter (qb : QuestionBank)
    (chapter_num : Int) : Except PyErr Nat :=
  match dget qb.chap_num_to_ids chapter_num with
  | some s => .ok s.length
  | none => .error (.keyError (toString chapter_num))

/-- A mutating call on the bank: `add_chapter` or `add_question`. -/
inductive Op where
  | addChapter (n : Int) (d : String)
  | addQuestion (q : Question) (n : Int)

/-- Apply one call. -/
def applyOp (qb : QuestionBank) : Op → QuestionBank × Option PyErr
  | .addChapter n d => qb.add_chapter n d
  | .addQuestion q n => qb.add_question q n

/-- Run a sequence of calls from a starting bank; the boolean records
whether every call in the sequence succeeded (raised nothing). -/
def runOps (qb : QuestionBank) : List Op → QuestionBank × Bool
  | [] => (qb, true)
  | op :: rest =>
      let r := applyOp qb op
      let rec1 := runOps r.1 rest
      (rec1.1, r.2.isNone && rec1.2)

/-- A concrete valid question for concrete instances. -/
def sampleEQuestion : Question :=
  { qid := "q1", question := "x?", answers := ["a", "b"], correct_answer := "a",
    img_path := none, tags := [], keywords := [], chapter := (1, "A") }

/-- The empty bank used as the starting state of reachability runs. -/
def emptyEBank : QuestionBank := QuestionBank.create "img"

/-- The call sequence that re-adds qid `q1` under a second chapter. -/
def doubleAddOps : List Op :=
  [.addChapter 1 "A", .addChapter 2 "B",
   .addQuestion sampleEQuestion 1, .addQuestion sampleEQuestion 2]

/-- The bank after the first `add_chapter 1` call of the C4 scenario. -/
def c4Bank : QuestionBank := (emptyEBank.add_chapter 1 "Signs").1

/-- A legacy bank holding chapter 1, for the duplicate-add contrast. -/
def legacyBankWithChapter : Qb.QuestionBank :=
  (Qb.emptyLegacyBank.add_chapter 1 "Signs").1

end Entities


namespace Img

/-- An RGB color. -/
abbrev Color := Nat × Nat × Nat

/-- A decoded raster image: its pixel size and a pixel sampler
(meaningful on `0 ≤ x < width`, `0 ≤ y < height`). -/
structure PILImage where
  width : Nat
  height : Nat
  pix : Int → Int → Color

/-- `Image.new(mode, size, color)`: a canvas of the given size filled
with a single color. -/
def imageNew (size : Nat × Nat) (color : Color) : PILImage :=
  { width := size.1, height := size.2, pix := fun _ _ => color }

/-- `background.paste(img, (px, py))`: the pasted image's top-left
corner lands at `(px, py)` (offsets may be negative — PIL crops whatever
falls outside); the background keeps its own size. -/
def paste (bg img : PILImage) (px py : Int) : PILImage :=
  { width := bg.width, height := bg.height,
    pix := fun x y =>
      if px ≤ x ∧ x < px + img.width ∧ py ≤ y ∧ y < py + img.height then
        img.pix (x - px) (y - py)
      else bg.pix x y }

end Img

namespace DataFormatting

/-- `BUFFER_COLOR = (127, 127, 127)` in
`src/data_formatting/img_reshaper.py`. -/
def BUFFER_COLOR : Img.Color := (127, 127, 127)

/-- The attribute state of an `ImgReshaper` object: each field is unset
(`none`) until an assignment in `__init__` runs. -/
structure ImgReshaperObj where
  _size : Option (Nat × Nat)
  _buffer_image : Option Img.PILImage

/-- `ImgReshaper.__init__` (`src/data_formatting/img_reshaper.py` lines
14-26), statement by statement.  Its first statement,
`self._buffer_image = Image.new('RGB', self._size, BUFFER_COLOR)`,
reads `self._size`, but the assignment `self._size = target_size` is
only the SECOND statement — so the attribute read fails with
`AttributeError` on every construction. -/
def ImgReshaper.init (target_size : Nat × Nat) : Except PyErr ImgReshaperObj :=
  let self : ImgReshaperObj := { _size := none, _buffer_image := none }
  match self._size with
  | none => .error (.attributeError "ImgReshaper object has no attribute _size")
  | some sz =>
      let self1 : ImgReshaperObj := { self with _buffer_image := some (Img.imageNew sz BUFFER_COLOR) }
      .ok { self1 with _size := some target_size }

/-- `ImgSquarer.__init__` (lines 199-209): delegates to
`ImgReshaper.__init__` with a square target. -/
def ImgSquarer.init (target_size : Nat) : Except PyErr ImgReshaperObj :=
  ImgReshaper.init (target_size, target_size)

/-- `ImgReshaper._fill_img` (`src/data_formatting/img_reshaper.py`
lines 159-174): compute the centering offsets
`paste_x = (target_w - img_w)//2` and `paste_y = (target_h - img_h)//2`
(Python floor division) and paste the image at that offset onto a copy
of the buffer canvas — an RGB canvas of the target size filled with
`BUFFER_COLOR`, as the `__init__` assignments intend to build it. -/
def fill_img (size : Nat × Nat) (img : Img.PILImage) : Img.PILImage :=
  let paste_x : Int := Int.fdiv ((size.1 : Int) - (img.width : Int)) 2
  let paste_y : Int := Int.fdiv ((size.2 : Int) - (img.height : Int)) 2
  Img.paste (Img.imageNew size BUFFER_COLOR) img paste_x paste_y

end DataFormatting

namespace DataCleaning

/-- `ImgReshaper._fill_img` (`src/data_cleaning/img_reshaper.py` lines
103-124): when the image already matches the target size it is returned
unchanged; otherwise it is pasted at the centering offsets onto a white
`(255, 255, 255)` canvas of the target size. -/
def fill_img (size : Nat × Nat) (img : Img.PILImage) : Img.PILImage :=
  if img.width = size.1 ∧ img.height = size.2 then img
  else
    let paste_x : Int := Int.fdiv ((size.1 : Int) - (img.width : Int)) 2
    let paste_y : Int := Int.fdiv ((size.2 : Int) - (img.height : Int)) 2
    Img.paste (Img.imageNew size (255, 255, 255)) img paste_x paste_y

end DataCleaning

/-- A concrete 2×2 black image for concrete instances. -/
def blackTwoByTwo : Img.PILImage :=
  { width := 2, height := 2, pix := fun _ _ => (0, 0, 0) }


namespace DataAccess

/-- One question record of the JSON document (`questions[qid]` as
written by `_serialize_chapter`, lines 83-98).  `tags` / `keywords` are
`Option`s because `_add_questions` checks for the presence of the
`"tags"` key; serialized documents always carry both. -/
structure QuestionRecord where
  qid : String
  question : String
  answers : List String
  correct_answer : String
  img_path : String
  chapter : Int
  tags : Option (List String)
  keywords : Option (List String)
  deriving DecidableEq

/-- The JSON document of the database file.  On disk the chapter keys
are the decimal strings of the chapter numbers and `int(...)` recovers
them on load; they are modelled as `Int` keys directly. -/
structure JsonDoc where
  chapters : List (Int × String)
  chap_to_qids : List (Int × List String)
  questions : List (String × QuestionRecord)
  img_dir : String
  deriving DecidableEq

/-- The filesystem, as the list of existing file paths. -/
abbrev FS := List String

/-- `os.path.exists`. -/
def fsExists (fs : FS) (p : String) : Bool := fs.contains p

/-- The `LocalJsonDB` object of `src/data_access/local_json_db.py`:
its configured file path and image directory. -/
structure LocalJsonDB where
  db_file_path : String
  img_dir : String

/-- What the database file holds: nothing, the literal `{}`, or a
document. -/
inductive DbFile where
  | missing
  | emptyDoc
  | doc (d : JsonDoc)

/-- `img_path.split(".")[-1]`. -/
def pyExtension (p : String) : String := (p.splitOn ".").getLastD ""

/-- `_make_img_path` (lines 100-104): `""` for an imageless question,
else `f"{img_dir}/{qid}.{extension}"` with the extension taken from the
question's current image path. -/
def LocalJsonDB.make_img_path (db : LocalJsonDB) (question : Entities.Question) :
    String :=
  match question.img_path with
  | none => ""
  | some p => db.img_dir ++ "/" ++ question.qid ++ "." ++ pyExtension p

/-- The record `_serialize_chapter` (lines 83-98) stores under
`questions[qid]` for one qid of a chapter (`list(question.get_answers())`
enumerates the answer set in its canonical order). -/
def LocalJsonDB.recordOf (db : LocalJsonDB) (qb : Entities.QuestionBank)
    (chapter : Int) (qid : String) : Except PyErr (String × QuestionRecord) := do
  let question ← qb.get_question qid
  .ok (qid,
    { qid := question.qid, question := question.question,
      answers := question.answers, correct_answer := question.correct_answer,
      img_path := db.make_img_path question, chapter := chapter,
      tags := some question.tags, keywords := some question.keywords })

/-- The inner loop of `_serialize_chapter`: records for the sorted qids
of one chapter, in order. -/
def LocalJsonDB.recordsFor (db : LocalJsonDB) (qb : Entities.QuestionBank)
    (chapter : Int) : List String → Except PyErr (List (String × QuestionRecord))
  | [] => .ok []
  | qid :: rest => do
      let r ← db.recordOf qb chapter qid
      let rs ← db.recordsFor qb chapter rest
      .ok (r :: rs)

/-- `_serialize_question_bank` + `_serialize_chapter` (lines 67-98):
one pass over the sorted chapter numbers building the `chapters`,
`chap_to_qids` and `questions` dicts. -/
def LocalJsonDB.serializeChapters (db : LocalJsonDB) (qb : Entities.QuestionBank) :
    List Int →
    Except PyErr (List (Int × String) × List (Int × List String) × List (String × QuestionRecord))
  | [] => .ok ([], [], [])
  | c :: rest => do
      let d ← qb.describe_chapter c
      let s ← qb.get_qids_by_chapter c
      let qidsSorted := sortList s
      let recs ← db.recordsFor qb c qidsSorted
      let (chs, ctq, qs) ← db.serializeChapters qb rest
      .ok ((c, d) :: chs, (c, qidsSorted) :: ctq, recs ++ qs)

/-- `_serialize_question_bank` (lines 67-81): the document. -/
def LocalJsonDB.serialize_question_bank (db : LocalJsonDB)
    (qb : Entities.QuestionBank) : Except PyErr JsonDoc := do
  let (chs, ctq, qs) ← db.serializeChapters qb qb.list_chapters
  .ok { chapters := chs, chap_to_qids := ctq, questions := qs,
        img_dir := db.img_dir }

/-- `_copy_images` (lines 164-180): walk `get_qid_list()`; for each
question whose current image path is truthy and exists, `shutil.copy2`
materializes the destination path `make_img_path` on the filesystem;
other questions are skipped silently. -/
def LocalJsonDB.copyImagesFrom (db : LocalJsonDB) (qb : Entities.QuestionBank) :
    List String → FS → Except PyErr FS
  | [], fs => .ok fs
  | qid :: rest, fs => do
      let question ← qb.get_question qid
      let fs1 :=
        match question.img_path with
        | some p =>
            if p ≠ "" ∧ fsExists fs p then db.make_img_path question :: fs
            else fs
        | none => fs
      db.copyImagesFrom qb rest fs1

/-- `save` (lines 28-44): ensure the image directory exists (directories
are not modelled as paths), serialize, copy the images over when the
configured image directory differs from the bank's, and write the
document; any exception propagates (`raise e`).  The written document
and the filesystem after the copies are returned. -/
def LocalJsonDB.save (db : LocalJsonDB) (qb : Entities.QuestionBank) (fs : FS) :
    Except PyErr (JsonDoc × FS) := do
  let data ← db.serialize_question_bank qb
  let fs2 ←
    if db.img_dir ≠ qb.img_dir then db.copyImagesFrom qb qb.get_qid_list fs
    else .ok fs
  .ok (data, fs2)

/-- `_get_img_path` (lines 135-144): a blank stored path means no image;
an existing path is kept; a missing file raises `FileNotFoundError`
naming the path. -/
def get_img_path (q_data : QuestionRecord) (fs : FS) :
    Except PyErr (Option String) :=
  if pyBlank q_data.img_path then .ok none
  else if fsExists fs q_data.img_path then .ok (some q_data.img_path)
  else .error (.fileNotFoundError ("Image file not found: " ++ q_data.img_path ++ ". "))

/-- `_get_chapter_num` (lines 146-155): scan `chap_to_qids` in document
order for the first chapter whose list contains the qid. -/
def get_chapter_num (data : JsonDoc) (qid : String) : Except PyErr Int :=
  match data.chap_to_qids.find? (fun p => p.2.contains qid) with
  | some p => .ok p.1
  | none => .error (.valueError ("Question ID " ++ qid ++ " does not belong to any chapter."))

/-- `_add_chapters` (lines 157-162): `qb.add_chapter` for every entry in
document order; an exception aborts the load. -/
def addChaptersFrom (qb : Entities.QuestionBank) :
    List (Int × String) → Except PyErr Entities.QuestionBank
  | [] => .ok qb
  | (n, d) :: rest =>
      let r := qb.add_chapter n d
      match r.2 with
      | some e => .error e
      | none => addChaptersFrom r.1 rest

/-- The per-record body of `_add_questions` (lines 118-133): find the
owning chapter by scanning `chap_to_qids`, resolve the image path,
construct the `Question` (its chapter pair uses `describe_chapter`),
then restore tags and keywords when the record has a `"tags"` key. -/
def loadQuestion (data : JsonDoc) (fs : FS) (qb : Entities.QuestionBank)
    (qid : String) (q_data : QuestionRecord) :
    Except PyErr (Entities.Question × Int) := do
  let chapter ← get_chapter_num data qid
  let img_path ← get_img_path q_data fs
  let desc ← qb.describe_chapter chapter
  let question ← Entities.Question.make q_data.qid q_data.question
    (pySet q_data.answers) q_data.correct_answer img_path (chapter, desc)
  match q_data.tags with
  | some t => do
      let question ← question.set_tags t
      match q_data.keywords with
      | some k => do
          let question ← question.set_keywords k
          .ok (question, chapter)
      | none => .error (.keyError "keywords")
  | none => .ok (question, chapter)

/-- `_add_questions` (lines 118-133): process the records in document
order, `qb.add_question` after each reconstruction. -/
def addQuestionsFrom (data : JsonDoc) (fs : FS) (qb : Entities.QuestionBank) :
    List (String × QuestionRecord) → Except PyErr Entities.QuestionBank
  | [] => .ok qb
  | (qid, q_data) :: rest => do
      let qc ← loadQuestion data fs qb qid q_data
      let r := qb.add_question qc.1 qc.2
      match r.2 with
      | some e => .error e
      | none => addQuestionsFrom data fs r.1 rest

/-- `_deserialize_question_bank` (lines 106-116). -/
def LocalJsonDB.deserialize_question_bank (db : LocalJsonDB) (data : JsonDoc)
    (fs : FS) : Except PyErr Entities.QuestionBank := do
  let qb := Entities.QuestionBank.create db.img_dir
  let qb ← addChaptersFrom qb data.chapters
  addQuestionsFrom data fs qb data.questions

/-- `load` (lines 46-65): `FileNotFoundError` when the file is missing;
a literal `{}` yields a fresh empty bank rooted at the configured image
directory; otherwise the parsed document is deserialized, any exception
being wrapped into `ConnectionError` with its message. -/
def LocalJsonDB.load (db : LocalJsonDB) (file : DbFile) (fs : FS) :
    Except PyErr Entities.QuestionBank :=
  match file with
  | .missing =>
      .error (.fileNotFoundError ("Database file not found: " ++ db.db_file_path))
  | .emptyDoc => .ok (Entities.QuestionBank.create db.img_dir)
  | .doc data =>
      match db.deserialize_question_bank data fs with
      | .ok qb => .ok qb
      | .error e => .error (.connectionError ("Error loading question bank: " ++ e.msg))

/-- A placeholder question (never the result of a successful lookup). -/
def junkQuestion : Entities.Question :=
  { qid := "", question := "", answers := [], correct_answer := "",
    img_path := none, tags := [], keywords := [], chapter := (0, "") }

/-- The description stored for chapter `c`. -/
def descD (qb : Entities.QuestionBank) (c : Int) : String :=
  (dget qb.chapters c).getD ""

/-- The membership set stored for chapter `c`. -/
def idsD (qb : Entities.QuestionBank) (c : Int) : List String :=
  (dget qb.chap_num_to_ids c).getD []

/-- The question stored for `qid`. -/
def qD (qb : Entities.QuestionBank) (qid : String) : Entities.Question :=
  (dget qb.id_to_q qid).getD junkQuestion

/-- Validity of a stored question: what `Question` construction and the
label setters enforce, so that serializing and reconstructing it
succeeds. -/
structure QValid (q : Entities.Question) : Prop where
  qid_ne : q.qid ≠ ""
  question_ne : q.question ≠ ""
  answers_len : 2 ≤ q.answers.length
  answers_ne : "" ∉ q.answers
  answers_nodup : q.answers.Nodup
  correct_mem : q.correct_answer ∈ q.answers
  tags_valid : Entities.validLabels q.tags
  keywords_valid : Entities.validLabels q.keywords

/-- Number of chapter membership sets containing `qid`, as counted by
`validate_chapter_consistency`. -/
def chapterCount (qb : Entities.QuestionBank) (qid : String) : Nat :=
  qb.chap_num_to_ids.countP (fun p => pyIn qid p.2)

/-- Well-formedness of a bank: what the pydantic validators certify
and the bookkeeping maintained by `add_chapter`/`add_question` —
duplicate-free keys, chapter keys matching between the two dicts, valid
chapter entries, membership sets that are duplicate-free subsets of
`qids`, every qid in exactly one chapter, and `id_to_q` binding every
qid to a valid question whose stored qid matches the key. -/
structure WF (qb : Entities.QuestionBank) : Prop where
  chapters_nodup : (qb.chapters.map Prod.fst).Nodup
  ids_nodup : (qb.chap_num_to_ids.map Prod.fst).Nodup
  qids_nodup : qb.qids.Nodup
  keys_match : ∀ c : Int, dmem qb.chapters c = dmem qb.chap_num_to_ids c
  chapters_valid : ∀ p ∈ qb.chapters, 0 < p.1 ∧ pyBlank p.2 = false
  sets_nodup : ∀ p ∈ qb.chap_num_to_ids, p.2.Nodup
  sets_sub : ∀ p ∈ qb.chap_num_to_ids, ∀ q ∈ p.2, q ∈ qb.qids
  unique_chapter : ∀ q ∈ qb.qids, chapterCount qb q = 1
  q_bound : ∀ q ∈ qb.qids,
    dget qb.id_to_q q = some (qD qb q) ∧ (qD qb q).qid = q ∧ QValid (qD qb q)

/-- The image-file side conditions for a faithful round trip: every
stored image path is truthy and exists on disk, and when the database
shares the bank's image directory (so `save` copies nothing) the stored
paths already follow the `{img_dir}/{qid}.{ext}` convention. -/
def ImgOK (db : LocalJsonDB) (qb : Entities.QuestionBank) (fs : FS) : Prop :=
  ∀ q ∈ qb.qids, ∀ p, (qD qb q).img_path = some p →
    p ≠ "" ∧ fsExists fs p = true
      ∧ (db.img_dir = qb.img_dir → p = db.make_img_path (qD qb q))

/-- The question `_add_questions` reconstructs from a record whose
owning chapter is `c` described by `desc`. -/
def recon (q_data : QuestionRecord) (c : Int) (desc : String) :
    Entities.Question :=
  { qid := q_data.qid, question := q_data.question,
    answers := pySet q_data.answers, correct_answer := q_data.correct_answer,
    img_path := if pyBlank q_data.img_path then none else some q_data.img_path,
    tags := q_data.tags.getD [], keywords := q_data.keywords.getD [],
    chapter := (c, desc) }

end DataAccess


namespace DataAccess

/-- The description stored for chapter `c` in a chapters dict. -/
def descC (chs : List (Int × String)) (c : Int) : String :=
  (dget chs c).getD ""

/-- The record `_serialize_chapter` emits for `qid` under chapter `c`. -/
def recD (db : LocalJsonDB) (qb : Entities.QuestionBank) (c : Int)
    (qid : String) : QuestionRecord :=
  { qid := (qD qb qid).qid, question := (qD qb qid).question,
    answers := (qD qb qid).answers,
    correct_answer := (qD qb qid).correct_answer,
    img_path := db.make_img_path (qD qb qid), chapter := c,
    tags := some (qD qb qid).tags, keywords := some (qD qb qid).keywords }

end DataAccess


namespace DataAccess

/-- The document `save` writes for a bank (the output of
`_serialize_question_bank`). -/
def serDoc (db : LocalJsonDB) (qb : Entities.QuestionBank) : JsonDoc :=
  { chapters := qb.list_chapters.map (fun c => (c, descC qb.chapters c)),
    chap_to_qids := qb.list_chapters.map (fun c => (c, sortList (idsD qb c))),
    questions := qb.list_chapters.flatMap (fun c =>
      (sortList (idsD qb c)).map (fun qid => (qid, recD db qb c qid))),
    img_dir := db.img_dir }

end DataAccess


/-- A concrete database configuration for concrete instances. -/
def c1db : DataAccess.LocalJsonDB :=
  { db_file_path := "db.json", img_dir := "imgs" }

/-- A concrete well-formed one-chapter, one-question bank. -/
def c1qb : Entities.QuestionBank :=
  { img_dir := "img", qids := ["q1"], chapters := [(1, "Signs")],
    chap_num_to_ids := [(1, ["q1"])],
    id_to_q := [("q1", Entities.sampleEQuestion)] }


namespace DataAccess

/-- Conditions under which a stored record reconstructs: its owning
chapter resolves via `chap_to_qids`, the chapter exists, the question
fields pass construction validation, and the tags/keywords entries are
present and valid. -/
def RecWF (d : JsonDoc) (r : String × QuestionRecord) : Prop :=
  ∃ c, get_chapter_num d r.1 = .ok c ∧ dmem d.chapters c = true
    ∧ r.2.qid ≠ "" ∧ r.2.question ≠ ""
    ∧ 2 ≤ (pySet r.2.answers).length ∧ "" ∉ pySet r.2.answers
    ∧ r.2.correct_answer ∈ pySet r.2.answers
    ∧ (∃ t, r.2.tags = some t ∧ Entities.validLabels t)
    ∧ (∃ k, r.2.keywords = some k ∧ Entities.validLabels k)

/-- Structural well-formedness of a stored document: valid duplicate-free
chapters and reconstructible records. -/
structure WFdoc (d : JsonDoc) : Prop where
  chapters_nodup : (d.chapters.map Prod.fst).Nodup
  chapters_valid : ∀ p ∈ d.chapters, 0 < p.1 ∧ pyBlank p.2 = false
  records_wf : ∀ r ∈ d.questions, RecWF d r

/-- The image path of the first stored record (in document order) whose
`img_path` is non-blank but names a file missing from the filesystem. -/
def firstMissingImg (fs : FS) : List (String × QuestionRecord) → Option String
  | [] => none
  | (_, rec) :: rest =>
      if pyBlank rec.img_path then firstMissingImg fs rest
      else if fsExists fs rec.img_path then firstMissingImg fs rest
      else some rec.img_path

end DataAccess

/-- A concrete stored document referencing a missing image file
(mirroring the repository test fixture). -/
def c7doc : DataAccess.JsonDoc :=
  { chapters := [(1, "Test Chapter")],
    chap_to_qids := [(1, ["q1"])],
    questions := [("q1",
      { qid := "q1", question := "Test?", answers := ["A", "B"],
        correct_answer := "A", img_path := "/non/existent/image.jpg",
        chapter := 1, tags := some [], keywords := some [] })],
    img_dir := "imgs" }

-- ========================= Theorems =========================

theorem dget_dset_self {K V : Type} [DecidableEq K] (d : List (K × V)) (k : K)
    (v : V) : dget (dset d k v) k = some v := by
  induction d with
  | nil => simp [dset, dget]
  | cons p rest ih =>
      obtain ⟨k0, v0⟩ := p
      by_cases h : k0 = k <;> simp [dset, dget, h, ih]

theorem dget_dset_ne {K V : Type} [DecidableEq K] (d : List (K × V)) (k k' : K)
    (v : V) (h : k ≠ k') : dget (dset d k v) k' = dget d k' := by
  induction d with
  | nil => simp [dset, dget, h]
  | cons p rest ih =>
      obtain ⟨k0, v0⟩ := p
      by_cases hp : k0 = k
      · subst hp; simp [dset, dget, h, ih]
      · by_cases hp' : k0 = k'
        · subst hp'; simp [dset, dget, hp, Ne.symm h]
        · simp [dset, dget, hp, hp', ih]

theorem dget_dupd_self {K V : Type} [DecidableEq K] (d : List (K × V)) (k : K)
    (f : V → V) : dget (dupd d k f) k = (dget d k).map f := by
  induction d with
  | nil => simp [dupd, dget]
  | cons p rest ih =>
      obtain ⟨k0, v0⟩ := p
      by_cases h : k0 = k <;> simp [dupd, dget, h, ih]

theorem dget_dupd_ne {K V : Type} [DecidableEq K] (d : List (K × V)) (k k' : K)
    (f : V → V) (h : k ≠ k') : dget (dupd d k f) k' = dget d k' := by
  induction d with
  | nil => simp [dupd, dget]
  | cons p rest ih =>
      obtain ⟨k0, v0⟩ := p
      by_cases hp : k0 = k
      · subst hp; simp [dupd, dget, h, ih]
      · by_cases hp' : k0 = k'
        · subst hp'; simp [dupd, dget, hp, Ne.symm h]
        · simp [dupd, dget, hp, hp', ih]

theorem dget_map_self {K V : Type} [DecidableEq K] (cs : List K) (f : K → V)
    (c : K) (hc : c ∈ cs) :
    dget (cs.map fun k => (k, f k)) c = some (f c) := by
  induction cs with
  | nil => cases hc
  | cons a rest ih =>
      rcases List.mem_cons.mp hc with rfl | h
      · simp [dget]
      · by_cases ha : a = c
        · simp [dget, ha]
        · simp [dget, ha, ih h]

theorem dmem_iff {K V : Type} [DecidableEq K] (d : List (K × V)) (k : K) :
    dmem d k = true ↔ ∃ v, dget d k = some v := by
  simp [dmem, Option.isSome_iff_exists]

theorem le_foldr_max (l : List Nat) (k : Nat) (h : k ∈ l) :
    k ≤ l.foldr max 0 := by
  induction l with
  | nil => cases h
  | cons a rest ih =>
      rcases List.mem_cons.mp h with rfl | h
      · exact le_max_left _ _
      · exact le_trans (ih h) (le_max_right _ _)

theorem dget_mem_keys {K V : Type} [DecidableEq K] (l : List (K × V)) (k : K)
    (v : V) (hv : dget l k = some v) : k ∈ l.map Prod.fst := by
  induction l with
  | nil => simp [dget] at hv
  | cons p rest ih =>
      obtain ⟨k0, v0⟩ := p
      by_cases hp : k0 = k
      · subst hp; simp
      · simp [dget, hp] at hv
        simp [ih hv]

theorem mem_lt_freshList (σ : Qb.ObjHeap) (k : Nat)
    (h : dmem σ.lists k = true) : k < σ.freshList := by
  rcases (dmem_iff _ _).mp h with ⟨v, hv⟩
  exact Nat.lt_succ_of_le (le_foldr_max _ _ (dget_mem_keys _ _ _ hv))

/-- C5: for every argument tuple (with `answers` a set of strings and
`correct_answer` a string, per the constructor signature), `_check_format`
raises a single `IncorrectFormatError` exactly when qid is empty or not a
string, or the question text is empty or not a string, or `answers` has
fewer than two elements, or some answer is the empty string, or
`correct_answer` is not a member of `answers`, or `img_path` is neither
`None` nor a string; the outcome is precisely the spec-side cascade that
reports the first violation in the fixed order qid → question →
answers-count → empty-answer → correct-answer-membership → img_path-type.
In particular `Question(qid="q1", question="x?", answers={"a"},
correct_answer="a")` raises. -/
theorem question_construction_validation (qid question : Qb.PyArg)
    (answers : Finset String) (ca : String) (img : Qb.PyArg) :
    (Qb.check_format qid question answers ca img
      = Qb.specValidationOutcome qid question answers ca img)
    ∧ ((Qb.check_format qid question answers ca img).isOk = false ↔
        ((¬ qid.isStr ∨ qid.strVal = "") ∨ (¬ question.isStr ∨ question.strVal = "")
          ∨ answers.card < 2 ∨ "" ∈ answers ∨ ca ∉ answers
          ∨ (img ≠ .pyNone ∧ ¬ img.isStr)))
    ∧ (Qb.check_format (.pyStr "q1") (.pyStr "x?") {"a"} "a" .pyNone).isOk = false := by
  rcases qid with _ | s | _ <;> rcases question with _ | t | _ <;>
    rcases img with _ | u | _ <;>
    refine ⟨?_, ?_, by decide⟩ <;>
    simp only [Qb.check_format, Qb.specValidationOutcome, Qb.PyArg.isStr,
      Qb.PyArg.strVal, Bool.not_true, Bool.not_false, false_or, or_false,
      true_or, or_true, if_true, if_false, not_true, not_false_iff,
      ne_eq, not_true_eq_false, not_false_eq_true, and_true, and_false,
      true_and, false_and, if_pos, reduceCtorEq, not_not] <;>
    try rfl
  all_goals try split_ifs
  all_goals simp_all [Except.isOk, Except.toBool]

theorem question_construction_validation_witness :
    (Qb.check_format (.pyStr "q1") (.pyStr "x?") {"a", "b"} "a" .pyNone
        = Qb.specValidationOutcome (.pyStr "q1") (.pyStr "x?") {"a", "b"} "a" .pyNone)
    ∧ ((Qb.check_format (.pyStr "q1") (.pyStr "x?") {"a", "b"} "a" .pyNone).isOk = false ↔
        ((¬ (Qb.PyArg.pyStr "q1").isStr ∨ (Qb.PyArg.pyStr "q1").strVal = "")
          ∨ (¬ (Qb.PyArg.pyStr "x?").isStr ∨ (Qb.PyArg.pyStr "x?").strVal = "")
          ∨ ({"a", "b"} : Finset String).card < 2 ∨ "" ∈ ({"a", "b"} : Finset String)
          ∨ "a" ∉ ({"a", "b"} : Finset String)
          ∨ (Qb.PyArg.pyNone ≠ .pyNone ∧ ¬ (Qb.PyArg.pyNone).isStr)))
    ∧ (Qb.check_format (.pyStr "q1") (.pyStr "x?") {"a"} "a" .pyNone).isOk = false :=
  question_construction_validation (.pyStr "q1") (.pyStr "x?") {"a", "b"} "a" .pyNone

/-- C8 (amended): `get_tags` returns a defensive copy — appending to the
returned list object leaves the question's internal tags unchanged — but
`get_answers` returns the internal set object itself (not a copy), so a
caller-side `add` through the returned reference mutates the question's
internal answer set. -/
theorem accessor_copy_semantics (σ : Qb.ObjHeap) (q : Qb.QuestionObj)
    (x : String) (htags : dmem σ.lists q.tagsRef = true) :
    (dget ((Qb.ObjHeap.listAppend (Qb.QuestionObj.get_tags σ q).1
              (Qb.QuestionObj.get_tags σ q).2 x).lists) q.tagsRef
        = dget σ.lists q.tagsRef)
    ∧ Qb.QuestionObj.get_answers σ q = q.answersRef
    ∧ dget ((Qb.ObjHeap.setAdd σ (Qb.QuestionObj.get_answers σ q) x).sets)
          q.answersRef
        = (dget σ.sets q.answersRef).map (insert x) := by
  refine ⟨?_, rfl, ?_⟩
  · have hne : q.tagsRef ≠ σ.freshList :=
      Nat.ne_of_lt (mem_lt_freshList σ q.tagsRef htags)
    simp only [Qb.QuestionObj.get_tags, Qb.ObjHeap.listAppend]
    simp only [dupd, if_pos rfl]
    simp [dget, Ne.symm hne]
  · simp only [Qb.ObjHeap.setAdd, Qb.QuestionObj.get_answers]
    exact dget_dupd_self _ _ _

theorem accessor_copy_semantics_witness :
    dmem Qb.sampleHeap.lists Qb.sampleQuestionObj.tagsRef = true
    ∧ ((dget ((Qb.ObjHeap.listAppend
            (Qb.QuestionObj.get_tags Qb.sampleHeap Qb.sampleQuestionObj).1
            (Qb.QuestionObj.get_tags Qb.sampleHeap Qb.sampleQuestionObj).2 "z").lists)
          Qb.sampleQuestionObj.tagsRef
        = dget Qb.sampleHeap.lists Qb.sampleQuestionObj.tagsRef)
      ∧ Qb.QuestionObj.get_answers Qb.sampleHeap Qb.sampleQuestionObj
          = Qb.sampleQuestionObj.answersRef
      ∧ dget ((Qb.ObjHeap.setAdd Qb.sampleHeap
            (Qb.QuestionObj.get_answers Qb.sampleHeap Qb.sampleQuestionObj) "z").sets)
            Qb.sampleQuestionObj.answersRef
        = (dget Qb.sampleHeap.sets Qb.sampleQuestionObj.answersRef).map (insert "z")) :=
  ⟨by decide, accessor_copy_semantics Qb.sampleHeap Qb.sampleQuestionObj "z" (by decide)⟩

/-- C8 counterexample: on a concrete heap, mutating the set returned by
`get_answers` changes what a subsequent `get_answers` on the same question
observes — the returned container is not a copy, refuting the claim that
both accessors hand back defensive copies. -/
theorem get_answers_alias_counterexample :
    dget ((Qb.ObjHeap.setAdd Qb.sampleHeap
            (Qb.QuestionObj.get_answers Qb.sampleHeap Qb.sampleQuestionObj) "z").sets)
        Qb.sampleQuestionObj.answersRef
      ≠ dget Qb.sampleHeap.sets Qb.sampleQuestionObj.answersRef := by
  decide

/-- C2 (code-bug exhibit): starting from the empty bank, the fully
successful call sequence `add_chapter(1,"A")`, `add_chapter(2,"B")`,
`add_question(q1, 1)`, `add_question(q1, 2)` leaves qid `q1` in the
membership sets of BOTH chapters (count 2, not 1); the resulting
reachable state fails the model's own `validate_chapter_consistency`
rule that every qid belong to exactly one chapter. -/
theorem membership_invariant_violated :
    (Entities.runOps Entities.emptyEBank Entities.doubleAddOps).2 = true
    ∧ ((Entities.runOps Entities.emptyEBank Entities.doubleAddOps).1.chap_num_to_ids.countP
        (fun p => decide ("q1" ∈ p.2)) = 2)
    ∧ (Entities.runOps Entities.emptyEBank Entities.doubleAddOps).1.validate_chapter_consistency
        = some (.valueError "Question q1 must belong to exactly one chapter") := by
  decide

/-- C3 (amended): `add_question` on a chapter number absent from the
bank raises a chapter-not-found `KeyError` in both implementations; the
pydantic entities bank is left completely unchanged, while the legacy
`qb.QuestionBank` raises only after `self._ids.add(qid)` has run, so the
qid stays registered in its `_ids` set (and nowhere else). -/
theorem add_question_missing_chapter (qbE : Entities.QuestionBank)
    (qE : Entities.Question) (lb : Qb.QuestionBank) (qL : Qb.Question)
    (n m : Int) (hE : dmem qbE.chapters n = false)
    (hL : dmem lb._chap_num_to_ids m = false) :
    Entities.QuestionBank.add_question qbE qE n
      = (qbE, some (.keyError ("Chapter " ++ toString n ++ " does not exist")))
    ∧ Qb.QuestionBank.add_question lb qL m
      = ({ lb with _ids := insert qL.qid lb._ids }, some (.keyError (toString m))) := by
  constructor
  · simp [Entities.QuestionBank.add_question, hE]
  · simp [Qb.QuestionBank.add_question, hL]

theorem add_question_missing_chapter_witness :
    Entities.QuestionBank.add_question Entities.emptyEBank Entities.sampleEQuestion 3
      = (Entities.emptyEBank,
         some (.keyError ("Chapter " ++ toString (3 : Int) ++ " does not exist")))
    ∧ Qb.QuestionBank.add_question Qb.emptyLegacyBank Qb.sampleQuestion 3
      = ({ Qb.emptyLegacyBank with
            _ids := insert Qb.sampleQuestion.qid Qb.emptyLegacyBank._ids },
         some (.keyError (toString (3 : Int)))) :=
  add_question_missing_chapter Entities.emptyEBank Entities.sampleEQuestion
    Qb.emptyLegacyBank Qb.sampleQuestion 3 3 (by decide) (by decide)

/-- C3 counterexample: on the legacy bank with no chapters,
`add_question(q1, 3)` raises, yet the bank is NOT left unchanged — the
qid has been added to `_ids` — refuting the claim as stated for the
legacy implementation it cites. -/
theorem add_question_missing_chapter_not_atomic :
    ((Qb.QuestionBank.add_question Qb.emptyLegacyBank Qb.sampleQuestion 3).2.isSome = true)
    ∧ (Qb.QuestionBank.add_question Qb.emptyLegacyBank Qb.sampleQuestion 3).1._ids
        ≠ Qb.emptyLegacyBank._ids := by
  decide

/-- C4 (code-bug exhibit): on the entities bank already holding chapter 1
with description "Signs", `add_chapter(1, "Rules")` returns with NO error
and silently keeps the old description — although the method's own
docstring (and the spec) promise `ValueError` when the chapter number
already exists, as the legacy implementation indeed raises. -/
theorem add_chapter_duplicate_silent :
    (Entities.QuestionBank.add_chapter Entities.c4Bank 1 "Rules")
      = (Entities.c4Bank, none)
    ∧ Entities.QuestionBank.describe_chapter
        (Entities.QuestionBank.add_chapter Entities.c4Bank 1 "Rules").1 1
      = .ok "Signs"
    ∧ (Qb.QuestionBank.add_chapter Entities.legacyBankWithChapter 1 "Rules").2
      = some (.valueError "Chapter 1 already exists") := by
  decide

/-- C6: for every source image (as delivered by the rescale step) and
every positive target size, both `_fill_img` variants return a canvas of
exactly the target size with the image pasted at the centering offset
`((target_w - img_w)//2, (target_h - img_h)//2)`: inside the canvas, a
pixel of the pasted region samples the source shifted by that offset and
every other pixel is the padding color; when the image already equals
the canvas size the centering offsets degenerate to `(0, 0)`. -/
theorem reshape_containment_centering (w h : Nat) (img : Img.PILImage)
    (hw : 0 < w) (hh : 0 < h) :
    ((DataFormatting.fill_img (w, h) img).width = w
      ∧ (DataFormatting.fill_img (w, h) img).height = h
      ∧ (DataCleaning.fill_img (w, h) img).width = w
      ∧ (DataCleaning.fill_img (w, h) img).height = h)
    ∧ (∀ x y : Int, 0 ≤ x → x < (w : Int) → 0 ≤ y → y < (h : Int) →
        ((DataFormatting.fill_img (w, h) img).pix x y
          = (if Int.fdiv ((w : Int) - (img.width : Int)) 2 ≤ x
                ∧ x < Int.fdiv ((w : Int) - (img.width : Int)) 2 + img.width
                ∧ Int.fdiv ((h : Int) - (img.height : Int)) 2 ≤ y
                ∧ y < Int.fdiv ((h : Int) - (img.height : Int)) 2 + img.height
             then img.pix (x - Int.fdiv ((w : Int) - (img.width : Int)) 2)
                          (y - Int.fdiv ((h : Int) - (img.height : Int)) 2)
             else DataFormatting.BUFFER_COLOR))
        ∧ ((DataCleaning.fill_img (w, h) img).pix x y
          = (if Int.fdiv ((w : Int) - (img.width : Int)) 2 ≤ x
                ∧ x < Int.fdiv ((w : Int) - (img.width : Int)) 2 + img.width
                ∧ Int.fdiv ((h : Int) - (img.height : Int)) 2 ≤ y
                ∧ y < Int.fdiv ((h : Int) - (img.height : Int)) 2 + img.height
             then img.pix (x - Int.fdiv ((w : Int) - (img.width : Int)) 2)
                          (y - Int.fdiv ((h : Int) - (img.height : Int)) 2)
             else (255, 255, 255))))
    ∧ (img.width = w → img.height = h →
        Int.fdiv ((w : Int) - (img.width : Int)) 2 = 0
          ∧ Int.fdiv ((h : Int) - (img.height : Int)) 2 = 0) := by
  refine ⟨⟨rfl, rfl, ?_, ?_⟩, ?_, ?_⟩
  · unfold DataCleaning.fill_img
    split_ifs with hsz
    · exact hsz.1
    · rfl
  · unfold DataCleaning.fill_img
    split_ifs with hsz
    · exact hsz.2
    · rfl
  · intro x y hx0 hxw hy0 hyh
    refine ⟨rfl, ?_⟩
    unfold DataCleaning.fill_img
    by_cases hsz : img.width = (w, h).1 ∧ img.height = (w, h).2
    · rw [if_pos hsz]
      have hew : img.width = w := hsz.1
      have heh : img.height = h := hsz.2
      rw [hew, heh]
      simp only [sub_self, Int.zero_fdiv, zero_add, sub_zero]
      rw [if_pos ⟨hx0, hxw, hy0, hyh⟩]
    · rw [if_neg hsz]
      rfl
  · intro hew heh
    rw [hew, heh]
    constructor <;> simp [Int.zero_fdiv]

/-- C9: `ImgReshaper.__init__` in `src/data_formatting/img_reshaper.py`
evaluates `Image.new('RGB', self._size, BUFFER_COLOR)` before
`self._size` has been assigned, so the attribute read raises
`AttributeError` for every target size, construction never produces an
object, and no `reshape` call on this class (or on `ImgSquarer`, which
delegates to it) is reachable. -/
theorem imgreshaper_init_unreachable (target_size : Nat × Nat) :
    DataFormatting.ImgReshaper.init target_size
      = .error (.attributeError "ImgReshaper object has no attribute _size")
    ∧ (∀ o, DataFormatting.ImgReshaper.init target_size ≠ .ok o)
    ∧ (∀ n o, DataFormatting.ImgSquarer.init n ≠ .ok o) := by
  refine ⟨rfl, ?_, ?_⟩
  · intro o hok
    simp [DataFormatting.ImgReshaper.init] at hok
  · intro n o hok
    simp [DataFormatting.ImgSquarer.init, DataFormatting.ImgReshaper.init] at hok

theorem reshape_containment_centering_witness :
    (DataFormatting.fill_img (4, 3) blackTwoByTwo).width = 4
    ∧ (DataFormatting.fill_img (4, 3) blackTwoByTwo).height = 3
    ∧ (DataCleaning.fill_img (4, 3) blackTwoByTwo).width = 4
    ∧ (DataCleaning.fill_img (4, 3) blackTwoByTwo).height = 3 :=
  have H := reshape_containment_centering 4 3 blackTwoByTwo (by decide) (by decide)
  ⟨H.1.1, H.1.2.1, H.1.2.2.1, H.1.2.2.2⟩

theorem insertSorted_perm {α : Type} [LinearOrder α] (x : α) (l : List α) :
    (insertSorted x l).Perm (x :: l) := by
  induction l with
  | nil => simp [insertSorted]
  | cons y rest ih =>
      unfold insertSorted
      split_ifs
      · exact List.Perm.refl _
      · exact (ih.cons y).trans (List.Perm.swap x y rest)

theorem sortList_perm {α : Type} [LinearOrder α] (l : List α) :
    (sortList l).Perm l := by
  induction l with
  | nil => exact List.Perm.refl _
  | cons x rest ih =>
      exact (insertSorted_perm x (sortList rest)).trans (ih.cons x)

theorem mem_sortList {α : Type} [LinearOrder α] (a : α) (l : List α) :
    a ∈ sortList l ↔ a ∈ l :=
  (sortList_perm l).mem_iff

theorem sortList_nodup {α : Type} [LinearOrder α] (l : List α)
    (h : l.Nodup) : (sortList l).Nodup :=
  ((sortList_perm l).nodup_iff).mpr h

theorem insertSorted_sorted {α : Type} [LinearOrder α] (x : α) (l : List α)
    (hs : List.Sorted (fun a b => a ≤ b) l) :
    List.Sorted (fun a b => a ≤ b) (insertSorted x l) := by
  induction l with
  | nil => simp [insertSorted]
  | cons y rest ih =>
      rw [List.sorted_cons] at hs
      unfold insertSorted
      split_ifs with hxy
      · rw [List.sorted_cons]
        refine ⟨?_, List.sorted_cons.mpr hs⟩
        intro b hb
        rcases List.mem_cons.mp hb with rfl | hb
        · exact hxy
        · exact le_trans hxy (hs.1 b hb)
      · rw [List.sorted_cons]
        refine ⟨?_, ih hs.2⟩
        intro b hb
        rcases List.mem_cons.mp ((insertSorted_perm x rest).mem_iff.mp hb) with rfl | hb
        · exact le_of_lt (not_le.mp hxy)
        · exact hs.1 b hb

theorem sortList_sorted {α : Type} [LinearOrder α] (l : List α) :
    List.Sorted (fun a b => a ≤ b) (sortList l) := by
  induction l with
  | nil => simp [sortList]
  | cons x rest ih => exact insertSorted_sorted x (sortList rest) ih

theorem sortList_eq_of_perm {α : Type} [LinearOrder α] (l1 l2 : List α)
    (h : l1.Perm l2) : sortList l1 = sortList l2 :=
  List.eq_of_perm_of_sorted
    ((sortList_perm l1).trans (h.trans (sortList_perm l2).symm))
    (sortList_sorted l1) (sortList_sorted l2)

theorem dget_mem {K V : Type} [DecidableEq K] (l : List (K × V)) (k : K)
    (v : V) (h : dget l k = some v) : (k, v) ∈ l := by
  induction l with
  | nil => simp [dget] at h
  | cons p rest ih =>
      obtain ⟨k0, v0⟩ := p
      by_cases hp : k0 = k
      · subst hp
        simp [dget] at h
        simp [h]
      · simp [dget, hp] at h
        simp [ih h]

theorem mem_keys_dmem {K V : Type} [DecidableEq K] (l : List (K × V)) (k : K)
    (h : k ∈ l.map Prod.fst) : dmem l k = true := by
  induction l with
  | nil => simp at h
  | cons p rest ih =>
      obtain ⟨k0, v0⟩ := p
      simp only [List.map_cons, List.mem_cons] at h
      by_cases hp : k0 = k
      · simp [dmem, dget, hp]
      · rcases h with h | h
        · exact absurd h.symm hp
        · have hrest := ih h
          simp only [dmem, dget]
          rw [if_neg hp]
          simpa [dmem] using hrest

theorem dmem_iff_mem_keys {K V : Type} [DecidableEq K] (l : List (K × V))
    (k : K) : dmem l k = true ↔ k ∈ l.map Prod.fst := by
  constructor
  · intro h
    rcases (dmem_iff _ _).mp h with ⟨v, hv⟩
    exact dget_mem_keys l k v hv
  · exact mem_keys_dmem l k

theorem dget_append_left {K V : Type} [DecidableEq K] (l1 l2 : List (K × V))
    (k : K) (h : dmem l1 k = true) : dget (l1 ++ l2) k = dget l1 k := by
  induction l1 with
  | nil => simp [dmem, dget] at h
  | cons p rest ih =>
      obtain ⟨k0, v0⟩ := p
      by_cases hp : k0 = k
      · simp [dget, hp]
      · simp [dmem, dget, hp] at h ⊢
        exact ih ((dmem_iff _ _).mpr ((Option.isSome_iff_exists).mp h |>.imp (fun _ hv => hv)))

theorem dget_append_right {K V : Type} [DecidableEq K] (l1 l2 : List (K × V))
    (k : K) (h : dmem l1 k = false) : dget (l1 ++ l2) k = dget l2 k := by
  induction l1 with
  | nil => simp [dget]
  | cons p rest ih =>
      obtain ⟨k0, v0⟩ := p
      by_cases hp : k0 = k
      · simp [dmem, dget, hp] at h
      · simp [dmem, dget, hp] at h ⊢
        exact ih (by simp [dmem, h])

theorem dset_append_of_not_mem {K V : Type} [DecidableEq K] (l : List (K × V))
    (k : K) (v : V) (h : dmem l k = false) : dset l k v = l ++ [(k, v)] := by
  induction l with
  | nil => simp [dset]
  | cons p rest ih =>
      obtain ⟨k0, v0⟩ := p
      by_cases hp : k0 = k
      · simp [dmem, dget, hp] at h
      · simp [dmem, dget, hp] at h
        simp [dset, hp, ih (by simp [dmem, h])]

theorem pySet_eq_self (l : List String) (h : l.Nodup) : pySet l = l :=
  List.dedup_eq_self.mpr h

theorem pyAdd_not_mem (s : List String) (x : String) (h : x ∉ s) :
    pyAdd s x = s ++ [x] := by
  simp [pyAdd, h]

theorem validate_chapters_none (l : List (Int × String))
    (h : ∀ p ∈ l, 0 < p.1 ∧ pyBlank p.2 = false) :
    Entities.validate_chapters l = none := by
  induction l with
  | nil => rfl
  | cons p rest ih =>
      obtain ⟨n, d⟩ := p
      have hp := h (n, d) (by simp)
      unfold Entities.validate_chapters
      rw [if_neg (by omega), if_neg (by simp [hp.2])]
      exact ih (fun q hq => h q (by simp [hq]))

theorem pyBlank_append (s t : String) :
    pyBlank (s ++ t) = (pyBlank s && pyBlank t) := by
  simp [pyBlank, String.data_append, List.all_append]

theorem pyBlank_make_img_path (db : DataAccess.LocalJsonDB)
    (q : Entities.Question) (p : String) (h : q.img_path = some p) :
    pyBlank (db.make_img_path q) = false := by
  simp only [DataAccess.LocalJsonDB.make_img_path, h]
  simp [pyBlank, String.data_append, List.all_append]

theorem countP_one_unique_key (l : List (Int × List String)) (q : String)
    (hnd : (l.map Prod.fst).Nodup)
    (h : l.countP (fun p => pyIn q p.2) = 1) :
    ∃ c s, dget l c = some s ∧ q ∈ s
      ∧ ∀ c' s', dget l c' = some s' → q ∈ s' → c' = c := by
  induction l with
  | nil => simp at h
  | cons p rest ih =>
      obtain ⟨k, s0⟩ := p
      rw [List.countP_cons] at h
      simp only [List.map_cons, List.nodup_cons] at hnd
      by_cases hq : q ∈ s0
      · have hif : (fun p : Int × List String => pyIn q p.2) (k, s0) = true := by
          simp [pyIn, hq]
        rw [if_pos hif] at h
        have hcnt : rest.countP (fun p => pyIn q p.2) = 0 := by omega
        refine ⟨k, s0, by simp [dget], hq, ?_⟩
        intro c' s' hget hmem
        by_cases hc : k = c'
        · exact hc.symm
        · have hin : (c', s') ∈ rest := by
            apply dget_mem rest c' s'
            simpa [dget, hc] using hget
          have hnp := List.countP_eq_zero.mp hcnt _ hin
          simp [pyIn] at hnp
          exact absurd hmem hnp
      · have hif : ¬ (fun p : Int × List String => pyIn q p.2) (k, s0) = true := by
          simp [pyIn, hq]
        rw [if_neg hif] at h
        have hcnt : rest.countP (fun p => pyIn q p.2) = 1 := by omega
        obtain ⟨c, s, hget, hmem, huniq⟩ := ih hnd.2 hcnt
        have hkc : k ≠ c := by
          intro hk
          exact hnd.1 (hk ▸ dget_mem_keys rest c s hget)
        refine ⟨c, s, by simpa [dget, hkc] using hget, hmem, ?_⟩
        intro c' s' hget' hmem'
        by_cases hc : k = c'
        · subst hc
          have hss : s0 = s' := by simpa [dget] using hget'
          exact absurd (hss.symm ▸ hmem') hq
        · exact huniq c' s' (by simpa [dget, hc] using hget') hmem'

theorem find_first_unique (cs : List Int) (f : Int → List String) (q : String)
    (c0 : Int) (hc0 : c0 ∈ cs) (hq : q ∈ f c0)
    (huniq : ∀ c ∈ cs, q ∈ f c → c = c0) :
    (cs.map (fun c => (c, f c))).find? (fun p => p.2.contains q)
      = some (c0, f c0) := by
  induction cs with
  | nil => cases hc0
  | cons a rest ih =>
      simp only [List.map_cons]
      by_cases ha : a = c0
      · subst ha
        rw [List.find?_cons_of_pos]
        simpa using hq
      · rw [List.find?_cons_of_neg]
        · refine ih ?_ (fun c hc hqc => huniq c (by simp [hc]) hqc)
          rcases List.mem_cons.mp hc0 with h | h
          · exact absurd h.symm ha
          · exact h
        · simp only [decide_eq_true_eq]
          intro hcontains
          have : q ∈ f a := by simpa using hcontains
          exact ha (huniq a (by simp) this)

theorem flat_keys_nodup (cs : List Int) (f : Int → List String)
    (hcs : cs.Nodup) (hf : ∀ c ∈ cs, (f c).Nodup)
    (hdisj : ∀ c ∈ cs, ∀ c' ∈ cs, ∀ q, q ∈ f c → q ∈ f c' → c = c') :
    (cs.flatMap f).Nodup := by
  induction cs with
  | nil => simp
  | cons a rest ih =>
      rw [List.flatMap_cons, List.nodup_append]
      rw [List.nodup_cons] at hcs
      refine ⟨hf a (by simp), ?_, ?_⟩
      · exact ih hcs.2 (fun c hc => hf c (by simp [hc]))
          (fun c hc c' hc' qq h1 h2 =>
            hdisj c (by simp [hc]) c' (by simp [hc']) qq h1 h2)
      · intro qq hqa hqrest
        rcases List.mem_flatMap.mp hqrest with ⟨c, hc, hqc⟩
        have : a = c := hdisj a (by simp) c (by simp [hc]) qq hqa hqc
        exact hcs.1 (this ▸ hc)

theorem dget_eq_some_getD {K V : Type} [DecidableEq K] (l : List (K × V))
    (k : K) (d : V) (h : dmem l k = true) : dget l k = some ((dget l k).getD d) := by
  rcases (dmem_iff _ _).mp h with ⟨v, hv⟩
  rw [hv]
  rfl

theorem bindOkExcept {ε α β : Type} (a : α) (f : α → Except ε β) :
    (Except.ok (ε := ε) a >>= f) = f a := rfl

theorem dmem_append {K V : Type} [DecidableEq K] (l1 l2 : List (K × V))
    (k : K) : dmem (l1 ++ l2) k = (dmem l1 k || dmem l2 k) := by
  induction l1 with
  | nil => simp [dmem, dget]
  | cons p rest ih =>
      obtain ⟨k0, v0⟩ := p
      by_cases hk : k0 = k
      · simp [dmem, dget, hk]
      · simp only [List.cons_append, dmem, dget, if_neg hk]
        simpa [dmem] using ih

theorem mem_dupd {K V : Type} [DecidableEq K] (l : List (K × V)) (k : K)
    (f : V → V) (p : K × V) (hp : p ∈ dupd l k f) :
    ∃ q ∈ l, p.1 = q.1 ∧ (p.2 = q.2 ∨ p.2 = f q.2) := by
  induction l with
  | nil => simp [dupd] at hp
  | cons q0 rest ih =>
      obtain ⟨k0, v0⟩ := q0
      by_cases hk : k0 = k
      · rw [dupd, if_pos hk] at hp
        rcases List.mem_cons.mp hp with rfl | hp
        · exact ⟨(k0, v0), by simp, rfl, Or.inr rfl⟩
        · exact ⟨p, by simp [hp], rfl, Or.inl rfl⟩
      · rw [dupd, if_neg hk] at hp
        rcases List.mem_cons.mp hp with rfl | hp
        · exact ⟨(k0, v0), by simp, rfl, Or.inl rfl⟩
        · obtain ⟨q, hq, h1, h2⟩ := ih hp
          exact ⟨q, by simp [hq], h1, h2⟩

theorem get_question_ok (qb : Entities.QuestionBank) (hwf : DataAccess.WF qb)
    (q : String) (hq : q ∈ qb.qids) :
    qb.get_question q = .ok (DataAccess.qD qb q) := by
  unfold Entities.QuestionBank.get_question
  rw [if_pos hq, (hwf.q_bound q hq).1]

theorem describe_chapter_of_dget (qb : Entities.QuestionBank) (c : Int)
    (d : String) (h : dget qb.chapters c = some d) :
    qb.describe_chapter c = .ok d := by
  unfold Entities.QuestionBank.describe_chapter
  rw [if_pos (by simp [dmem, h]), h]

theorem describe_chapter_ok (qb : Entities.QuestionBank) (c : Int)
    (hc : dmem qb.chapters c = true) :
    qb.describe_chapter c = .ok (DataAccess.descC qb.chapters c) :=
  describe_chapter_of_dget qb c _ (dget_eq_some_getD qb.chapters c "" hc)

theorem describe_chapter_congr (qb qb2 : Entities.QuestionBank)
    (h : qb2.chapters = qb.chapters) (c : Int) :
    qb2.describe_chapter c = qb.describe_chapter c := by
  unfold Entities.QuestionBank.describe_chapter
  rw [h]

theorem get_qids_ok (qb : Entities.QuestionBank) (hwf : DataAccess.WF qb)
    (c : Int) (hc : dmem qb.chapters c = true) :
    qb.get_qids_by_chapter c = .ok (DataAccess.idsD qb c) := by
  unfold Entities.QuestionBank.get_qids_by_chapter
  have hm : dmem qb.chap_num_to_ids c = true := (hwf.keys_match c) ▸ hc
  rw [if_pos hc, dget_eq_some_getD qb.chap_num_to_ids c [] hm]
  rfl

theorem idsD_sub_qids (qb : Entities.QuestionBank) (hwf : DataAccess.WF qb)
    (c : Int) (hc : dmem qb.chap_num_to_ids c = true) :
    ∀ q ∈ DataAccess.idsD qb c, q ∈ qb.qids := by
  intro q hq
  have hget : dget qb.chap_num_to_ids c = some (DataAccess.idsD qb c) :=
    dget_eq_some_getD qb.chap_num_to_ids c [] hc
  exact hwf.sets_sub _ (dget_mem _ _ _ hget) q hq

theorem recordsFor_ok (db : DataAccess.LocalJsonDB) (qb : Entities.QuestionBank)
    (hwf : DataAccess.WF qb) (c : Int) (l : List String)
    (hl : ∀ q ∈ l, q ∈ qb.qids) :
    db.recordsFor qb c l
      = .ok (l.map (fun qid => (qid, DataAccess.recD db qb c qid))) := by
  induction l with
  | nil => rfl
  | cons q rest ih =>
      unfold DataAccess.LocalJsonDB.recordsFor DataAccess.LocalJsonDB.recordOf
      simp only [get_question_ok qb hwf q (hl q (by simp)), bindOkExcept,
        ih (fun x hx => hl x (by simp [hx]))]
      rfl

theorem serializeChapters_ok (db : DataAccess.LocalJsonDB)
    (qb : Entities.QuestionBank) (hwf : DataAccess.WF qb) (cs : List Int)
    (hcs : ∀ c ∈ cs, dmem qb.chapters c = true) :
    db.serializeChapters qb cs = .ok
      (cs.map (fun c => (c, DataAccess.descC qb.chapters c)),
       cs.map (fun c => (c, sortList (DataAccess.idsD qb c))),
       cs.flatMap (fun c => (sortList (DataAccess.idsD qb c)).map
         (fun qid => (qid, DataAccess.recD db qb c qid)))) := by
  induction cs with
  | nil => rfl
  | cons c rest ih =>
      have hc := hcs c (by simp)
      unfold DataAccess.LocalJsonDB.serializeChapters
      simp only [describe_chapter_ok qb c hc, get_qids_ok qb hwf c hc,
        bindOkExcept,
        recordsFor_ok db qb hwf c _ (fun q hq =>
          idsD_sub_qids qb hwf c ((hwf.keys_match c) ▸ hc) q
            ((mem_sortList q _).mp hq)),
        ih (fun x hx => hcs x (by simp [hx]))]
      rfl

theorem list_chapters_mem (qb : Entities.QuestionBank) (c : Int) :
    c ∈ qb.list_chapters ↔ dmem qb.chapters c = true := by
  unfold Entities.QuestionBank.list_chapters
  rw [mem_sortList]
  exact (dmem_iff_mem_keys qb.chapters c).symm

theorem serialize_question_bank_ok (db : DataAccess.LocalJsonDB)
    (qb : Entities.QuestionBank) (hwf : DataAccess.WF qb) :
    db.serialize_question_bank qb = .ok
      { chapters := qb.list_chapters.map (fun c => (c, DataAccess.descC qb.chapters c)),
        chap_to_qids := qb.list_chapters.map (fun c => (c, sortList (DataAccess.idsD qb c))),
        questions := qb.list_chapters.flatMap (fun c =>
          (sortList (DataAccess.idsD qb c)).map
            (fun qid => (qid, DataAccess.recD db qb c qid))),
        img_dir := db.img_dir } := by
  unfold DataAccess.LocalJsonDB.serialize_question_bank
  simp only [serializeChapters_ok db qb hwf qb.list_chapters
    (fun c hc => (list_chapters_mem qb c).mp hc), bindOkExcept]

theorem fsExists_mono (fs : DataAccess.FS) (p q : String)
    (h : DataAccess.fsExists fs q = true) :
    DataAccess.fsExists (p :: fs) q = true := by
  simp [DataAccess.fsExists] at h ⊢
  exact Or.inr h

theorem copyImagesFrom_ok (db : DataAccess.LocalJsonDB)
    (qb : Entities.QuestionBank) (hwf : DataAccess.WF qb) (l : List String)
    (hl : ∀ q ∈ l, q ∈ qb.qids) :
    ∀ fs, ∃ fs2, db.copyImagesFrom qb l fs = .ok fs2
      ∧ (∀ p, DataAccess.fsExists fs p = true → DataAccess.fsExists fs2 p = true)
      ∧ (∀ q ∈ l, ∀ p, (DataAccess.qD qb q).img_path = some p → p ≠ "" →
          DataAccess.fsExists fs p = true →
          DataAccess.fsExists fs2 (db.make_img_path (DataAccess.qD qb q)) = true) := by
  induction l with
  | nil =>
      intro fs
      exact ⟨fs, rfl, fun p hp => hp, fun q hq => absurd hq (List.not_mem_nil q)⟩
  | cons q0 rest ih =>
      intro fs
      have hq0 : q0 ∈ qb.qids := hl q0 (by simp)
      have hrest : ∀ q ∈ rest, q ∈ qb.qids := fun x hx => hl x (by simp [hx])
      unfold DataAccess.LocalJsonDB.copyImagesFrom
      simp only [get_question_ok qb hwf q0 hq0, bindOkExcept]
      cases himg : (DataAccess.qD qb q0).img_path with
      | none =>
          obtain ⟨fs2, h1, h2, h3⟩ := ih hrest fs
          refine ⟨fs2, h1, h2, ?_⟩
          intro q hq p hp
          rcases List.mem_cons.mp hq with rfl | hq
          · rw [himg] at hp; cases hp
          · exact h3 q hq p hp
      | some p0 =>
          by_cases hcond : p0 ≠ "" ∧ DataAccess.fsExists fs p0 = true
          · obtain ⟨fs2, h1, h2, h3⟩ :=
              ih hrest (db.make_img_path (DataAccess.qD qb q0) :: fs)
            refine ⟨fs2, ?_,
              fun p hp => h2 p (fsExists_mono fs _ p hp), ?_⟩
            · show db.copyImagesFrom qb rest
                (if p0 ≠ "" ∧ DataAccess.fsExists fs p0 = true then
                  db.make_img_path (DataAccess.qD qb q0) :: fs else fs)
                = Except.ok fs2
              rw [if_pos hcond]
              exact h1
            · intro q hq p hp hpne hpfs
              rcases List.mem_cons.mp hq with rfl | hq
              · apply h2
                simp [DataAccess.fsExists]
              · exact h3 q hq p hp hpne (fsExists_mono fs _ p hpfs)
          · obtain ⟨fs2, h1, h2, h3⟩ := ih hrest fs
            refine ⟨fs2, ?_, h2, ?_⟩
            · show db.copyImagesFrom qb rest
                (if p0 ≠ "" ∧ DataAccess.fsExists fs p0 = true then
                  db.make_img_path (DataAccess.qD qb q0) :: fs else fs)
                = Except.ok fs2
              rw [if_neg hcond]
              exact h1
            · intro q hq p hp hpne hpfs
              rcases List.mem_cons.mp hq with rfl | hq
              · rw [himg] at hp
                cases hp
                exact absurd ⟨hpne, hpfs⟩ hcond
              · exact h3 q hq p hp hpne hpfs

theorem addChaptersFrom_ok (l : List (Int × String)) :
    ∀ qb0 : Entities.QuestionBank,
    (l.map Prod.fst).Nodup →
    (∀ p ∈ l, 0 < p.1 ∧ pyBlank p.2 = false) →
    (∀ p ∈ l, dmem qb0.chapters p.1 = false) →
    (∀ p ∈ qb0.chapters, 0 < p.1 ∧ pyBlank p.2 = false) →
    (∀ c, dmem qb0.chapters c = dmem qb0.chap_num_to_ids c) →
    DataAccess.addChaptersFrom qb0 l = .ok { qb0 with
        chapters := qb0.chapters ++ l,
        chap_num_to_ids := qb0.chap_num_to_ids ++ l.map (fun p => (p.1, [])) } := by
  induction l with
  | nil => intro qb0 _ _ _ _ _; simp [DataAccess.addChaptersFrom]
  | cons p rest ih =>
      intro qb0 hnd hvalid hfresh hold hkeys
      obtain ⟨n, d⟩ := p
      have hfn : dmem qb0.chapters n = false := hfresh (n, d) (by simp)
      have hfn2 : dmem qb0.chap_num_to_ids n = false := (hkeys n) ▸ hfn
      unfold DataAccess.addChaptersFrom Entities.QuestionBank.add_chapter
      rw [if_neg (by simp [hfn])]
      simp only
      rw [dset_append_of_not_mem qb0.chapters n d hfn,
        dset_append_of_not_mem qb0.chap_num_to_ids n [] hfn2]
      rw [validate_chapters_none _ (by
        intro q hq
        rcases List.mem_append.mp hq with hq | hq
        · exact hold q hq
        · rcases List.mem_cons.mp hq with rfl | h
          · exact hvalid (n, d) (by simp)
          · simp at h)]
      simp only [List.map_cons, List.nodup_cons] at hnd
      have := ih { qb0 with
          chapters := qb0.chapters ++ [(n, d)],
          chap_num_to_ids := qb0.chap_num_to_ids ++ [(n, [])] }
        hnd.2
        (fun q hq => hvalid q (by simp [hq]))
        (by
          intro q hq
          simp only [dmem_append]
          have h1 : dmem qb0.chapters q.1 = false := hfresh q (by simp [hq])
          have h2 : dmem [(n, d)] q.1 = false := by
            simp [dmem, dget]
            intro heq
            exact absurd (heq ▸ (List.mem_map.mpr ⟨q, hq, rfl⟩)) hnd.1
          simp [h1, h2])
        (by
          intro q hq
          rcases List.mem_append.mp hq with hq | hq
          · exact hold q hq
          · rcases List.mem_cons.mp hq with rfl | h
            · exact hvalid (n, d) (by simp)
            · simp at h)
        (by
          intro c
          simp only [dmem_append, hkeys c]
          by_cases hc : n = c <;> simp [dmem, dget, hc])
      rw [this]
      simp [List.append_assoc]

theorem get_img_path_nonmissing (rec : DataAccess.QuestionRecord)
    (fs : DataAccess.FS)
    (himg : pyBlank rec.img_path = true ∨ DataAccess.fsExists fs rec.img_path = true) :
    DataAccess.get_img_path rec fs
      = .ok (if pyBlank rec.img_path then none else some rec.img_path) := by
  unfold DataAccess.get_img_path
  by_cases hb : pyBlank rec.img_path = true
  · rw [if_pos hb, if_pos hb]
  · rw [if_neg hb, if_neg hb]
    rcases himg with h | h
    · exact absurd h hb
    · rw [if_pos h]

theorem question_make_ok (qid question : String) (answers : List String)
    (ca : String) (img : Option String) (chapter : Int × String)
    (hqid : qid ≠ "") (hqq : question ≠ "") (hlen : 2 ≤ answers.length)
    (hne : "" ∉ answers) (hca : ca ∈ answers) :
    Entities.Question.make qid question answers ca img chapter
      = .ok { qid := qid, question := question, answers := answers,
              correct_answer := ca, img_path := img, tags := [],
              keywords := [], chapter := chapter } := by
  unfold Entities.Question.make
  rw [if_neg hqid, if_neg hqq, if_neg (by omega), if_neg hne, if_neg (by simp [hca])]

theorem loadQuestion_ok (data : DataAccess.JsonDoc) (fs : DataAccess.FS)
    (B : Entities.QuestionBank) (qid : String) (rec : DataAccess.QuestionRecord)
    (c : Int) (t k : List String)
    (hchap : DataAccess.get_chapter_num data qid = .ok c)
    (hcmem : dmem B.chapters c = true)
    (himg : pyBlank rec.img_path = true ∨ DataAccess.fsExists fs rec.img_path = true)
    (hqid : rec.qid ≠ "") (hqq : rec.question ≠ "")
    (hlen : 2 ≤ (pySet rec.answers).length)
    (hne : "" ∉ pySet rec.answers)
    (hca : rec.correct_answer ∈ pySet rec.answers)
    (htags : rec.tags = some t) (htv : Entities.validLabels t)
    (hkw : rec.keywords = some k) (hkv : Entities.validLabels k) :
    DataAccess.loadQuestion data fs B qid rec
      = .ok (DataAccess.recon rec c (DataAccess.descC B.chapters c), c) := by
  unfold DataAccess.loadQuestion
  simp only [hchap, bindOkExcept, get_img_path_nonmissing rec fs himg,
    describe_chapter_ok B c hcmem,
    question_make_ok rec.qid rec.question (pySet rec.answers)
      rec.correct_answer _ _ hqid hqq hlen hne hca,
    htags, hkw]
  unfold Entities.Question.set_tags Entities.Question.set_keywords
  rw [if_pos htv]
  simp only [bindOkExcept]
  rw [if_pos hkv]
  simp only [bindOkExcept]
  unfold DataAccess.recon
  rw [htags, hkw]
  rfl

theorem loadQuestion_congr (data : DataAccess.JsonDoc) (fs : DataAccess.FS)
    (B B2 : Entities.QuestionBank) (h : B2.chapters = B.chapters)
    (qid : String) (rec : DataAccess.QuestionRecord) :
    DataAccess.loadQuestion data fs B2 qid rec
      = DataAccess.loadQuestion data fs B qid rec := by
  unfold DataAccess.loadQuestion
  simp only [describe_chapter_congr B B2 h]

theorem mem_pyAdd (s : List String) (x y : String) (h : y ∈ pyAdd s x) :
    y ∈ s ∨ y = x := by
  unfold pyAdd at h
  split_ifs at h with hx
  · exact Or.inl h
  · rcases List.mem_append.mp h with h | h
    · exact Or.inl h
    · simp at h
      exact Or.inr h

theorem addQuestionsFrom_ok (data : DataAccess.JsonDoc) (fs : DataAccess.FS) :
    ∀ (R : List (String × DataAccess.QuestionRecord)) (B : Entities.QuestionBank),
    (∀ r ∈ R, ∃ c, DataAccess.get_chapter_num data r.1 = .ok c
        ∧ dmem B.chapters c = true
        ∧ DataAccess.loadQuestion data fs B r.1 r.2
            = .ok (DataAccess.recon r.2 c (DataAccess.descC B.chapters c), c)
        ∧ r.2.qid = r.1) →
    (R.map Prod.fst).Nodup →
    (∀ r ∈ R, r.1 ∉ B.qids) →
    (∀ p ∈ B.chap_num_to_ids, ∀ q ∈ p.2, q ∈ B.qids) →
    ∃ B2, DataAccess.addQuestionsFrom data fs B R = .ok B2
      ∧ B2.img_dir = B.img_dir
      ∧ B2.chapters = B.chapters
      ∧ B2.qids = B.qids ++ R.map Prod.fst
      ∧ (∀ c, dget B2.chap_num_to_ids c = (dget B.chap_num_to_ids c).map
            (fun s => s ++ (R.filter
              (fun r => decide (DataAccess.get_chapter_num data r.1 = .ok c))).map Prod.fst))
      ∧ (∀ qid rec c, (qid, rec) ∈ R → DataAccess.get_chapter_num data qid = .ok c →
            dget B2.id_to_q qid
              = some (DataAccess.recon rec c (DataAccess.descC B.chapters c)))
      ∧ (∀ qid, qid ∉ R.map Prod.fst → dget B2.id_to_q qid = dget B.id_to_q qid) := by
  intro R
  induction R with
  | nil =>
      intro B _ _ _ _
      refine ⟨B, rfl, rfl, rfl, by simp, ?_, by simp, fun _ _ => rfl⟩
      intro c
      cases dget B.chap_num_to_ids c <;> simp
  | cons r rest ih =>
      obtain ⟨qid, rec⟩ := r
      intro B hrec hkeys hfresh hsets
      obtain ⟨c1, hchap1, hcm1, hload1, hqid1⟩ := hrec (qid, rec) (by simp)
      simp only [List.map_cons, List.nodup_cons] at hkeys
      have hq_notin : qid ∉ B.qids := hfresh (qid, rec) (by simp)
      have hq1qid : (DataAccess.recon rec c1 (DataAccess.descC B.chapters c1)).qid = qid := hqid1
      have hadd : B.add_question
          (DataAccess.recon rec c1 (DataAccess.descC B.chapters c1)) c1
          = ({ B with
                qids := B.qids ++ [qid],
                chap_num_to_ids := dupd B.chap_num_to_ids c1 (fun s => pyAdd s qid),
                id_to_q := dset B.id_to_q qid
                  (DataAccess.recon rec c1 (DataAccess.descC B.chapters c1)) }, none) := by
        unfold Entities.QuestionBank.add_question
        rw [if_neg (by simp [hcm1])]
        simp only [hq1qid]
        rw [pyAdd_not_mem B.qids qid hq_notin]
      have hstep : DataAccess.addQuestionsFrom data fs B ((qid, rec) :: rest)
          = DataAccess.addQuestionsFrom data fs
              { B with
                qids := B.qids ++ [qid],
                chap_num_to_ids := dupd B.chap_num_to_ids c1 (fun s => pyAdd s qid),
                id_to_q := dset B.id_to_q qid
                  (DataAccess.recon rec c1 (DataAccess.descC B.chapters c1)) } rest := by
        conv_lhs => rw [DataAccess.addQuestionsFrom]
        simp only [hload1, bindOkExcept, hadd]
      set B1 : Entities.QuestionBank :=
        { B with
          qids := B.qids ++ [qid],
          chap_num_to_ids := dupd B.chap_num_to_ids c1 (fun s => pyAdd s qid),
          id_to_q := dset B.id_to_q qid
            (DataAccess.recon rec c1 (DataAccess.descC B.chapters c1)) } with hB1
      have hB1chaps : B1.chapters = B.chapters := rfl
      obtain ⟨B2, h1, h2, h3, h4, h5, h6, h7⟩ := ih B1
        (by
          intro r' hr'
          obtain ⟨c, hc1, hc2, hc3, hc4⟩ := hrec r' (by simp [hr'])
          exact ⟨c, hc1, by rw [hB1chaps]; exact hc2, by
            rw [loadQuestion_congr data fs B B1 hB1chaps, hB1chaps]
            exact hc3, hc4⟩)
        hkeys.2
        (by
          intro r' hr'
          have hne : r'.1 ≠ qid := by
            intro heq
            exact hkeys.1 (heq ▸ (List.mem_map.mpr ⟨r', hr', rfl⟩))
          have hnin : r'.1 ∉ B.qids := hfresh r' (by simp [hr'])
          show r'.1 ∉ B.qids ++ [qid]
          rw [List.mem_append]
          rintro (h | h)
          · exact hnin h
          · simp at h
            exact hne h)
        (by
          intro p hp q hq
          obtain ⟨p0, hp0, hfst, hsnd⟩ := mem_dupd B.chap_num_to_ids c1 _ p hp
          show q ∈ B.qids ++ [qid]
          rw [List.mem_append]
          rcases hsnd with h | h
          · exact Or.inl (hsets p0 hp0 q (h ▸ hq))
          · rcases mem_pyAdd p0.2 qid q (h ▸ hq) with hh | hh
            · exact Or.inl (hsets p0 hp0 q hh)
            · simp [hh])
      refine ⟨B2, by rw [hstep]; exact h1, h2, h3.trans hB1chaps, ?_, ?_, ?_, ?_⟩
      · rw [h4]
        show B.qids ++ [qid] ++ rest.map Prod.fst = B.qids ++ qid :: rest.map Prod.fst
        simp
      · intro c
        rw [h5 c]
        show (dget (dupd B.chap_num_to_ids c1 (fun s => pyAdd s qid)) c).map _ = _
        by_cases hc : c1 = c
        · subst hc
          rw [dget_dupd_self]
          rw [Option.map_map]
          cases hdg : dget B.chap_num_to_ids c1 with
          | none => simp
          | some s =>
              have hqs : qid ∉ s := fun hin =>
                hq_notin (hsets (c1, s) (dget_mem _ _ _ hdg) qid hin)
              simp only [Option.map_some', Function.comp_apply, Option.some.injEq]
              rw [pyAdd_not_mem s qid hqs,
                List.filter_cons_of_pos (by simp [hchap1])]
              simp
        · rw [dget_dupd_ne _ _ _ _ hc]
          rw [List.filter_cons_of_neg (by
            simp only [decide_eq_true_eq, hchap1]
            intro heq
            exact hc (Except.ok.inj heq))]
      · intro qid' rec' c hmem hchap'
        rcases List.mem_cons.mp hmem with heq | hmem'
        · have hq' : qid' = qid := congrArg Prod.fst heq
          have hr' : rec' = rec := congrArg Prod.snd heq
          have hcc : c = c1 := by
            rw [hq', hchap1] at hchap'
            exact (Except.ok.inj hchap').symm
          rw [hq', hr', hcc]
          rw [h7 qid hkeys.1]
          show dget (dset B.id_to_q qid _) qid = _
          rw [dget_dset_self]
        · have := h6 qid' rec' c hmem' hchap'
          rw [this, hB1chaps]
      · intro qid' hq'
        have hne : qid' ≠ qid := by
          intro heq
          exact hq' (by simp [heq])
        have hnotrest : qid' ∉ rest.map Prod.fst := by
          intro hin
          exact hq' (by simp [hin])
        rw [h7 qid' hnotrest]
        show dget (dset B.id_to_q qid _) qid' = dget B.id_to_q qid'
        rw [dget_dset_ne _ _ _ _ (Ne.symm hne)]

theorem serialize_to_serDoc (db : DataAccess.LocalJsonDB)
    (qb : Entities.QuestionBank) (hwf : DataAccess.WF qb) :
    db.serialize_question_bank qb = .ok (DataAccess.serDoc db qb) :=
  serialize_question_bank_ok db qb hwf

theorem wf_unique_data (qb : Entities.QuestionBank) (hwf : DataAccess.WF qb)
    (q : String) (hq : q ∈ qb.qids) :
    ∃ c0, dmem qb.chap_num_to_ids c0 = true ∧ q ∈ DataAccess.idsD qb c0
      ∧ ∀ c, dmem qb.chap_num_to_ids c = true →
          q ∈ DataAccess.idsD qb c → c = c0 := by
  obtain ⟨c, s, hget, hmem, huniq⟩ := countP_one_unique_key qb.chap_num_to_ids q
    hwf.ids_nodup (hwf.unique_chapter q hq)
  have hids : DataAccess.idsD qb c = s := by
    unfold DataAccess.idsD
    rw [hget]
    rfl
  refine ⟨c, by simp [dmem, hget], hids ▸ hmem, ?_⟩
  intro c' hc' hmem'
  have hget' : dget qb.chap_num_to_ids c' = some (DataAccess.idsD qb c') :=
    dget_eq_some_getD _ _ [] hc'
  exact huniq c' (DataAccess.idsD qb c') hget' hmem'

theorem get_chapter_num_serDoc (db : DataAccess.LocalJsonDB)
    (qb : Entities.QuestionBank) (hwf : DataAccess.WF qb) (q : String)
    (c0 : Int) (hc0 : dmem qb.chap_num_to_ids c0 = true)
    (hmem : q ∈ DataAccess.idsD qb c0)
    (huniq : ∀ c, dmem qb.chap_num_to_ids c = true →
        q ∈ DataAccess.idsD qb c → c = c0) :
    DataAccess.get_chapter_num (DataAccess.serDoc db qb) q = .ok c0 := by
  unfold DataAccess.get_chapter_num DataAccess.serDoc
  have hc0cs : c0 ∈ qb.list_chapters :=
    (list_chapters_mem qb c0).mpr ((hwf.keys_match c0).symm ▸ hc0)
  rw [find_first_unique qb.list_chapters (fun c => sortList (DataAccess.idsD qb c))
    q c0 hc0cs ((mem_sortList q _).mpr hmem)
    (fun c hc hqc => huniq c ((hwf.keys_match c) ▸ (list_chapters_mem qb c).mp hc)
      ((mem_sortList q _).mp hqc))]

theorem mem_serQuestions (db : DataAccess.LocalJsonDB)
    (qb : Entities.QuestionBank) (q : String) (rec : DataAccess.QuestionRecord) :
    (q, rec) ∈ (DataAccess.serDoc db qb).questions
      ↔ ∃ c ∈ qb.list_chapters, q ∈ sortList (DataAccess.idsD qb c)
          ∧ rec = DataAccess.recD db qb c q := by
  unfold DataAccess.serDoc
  simp only [List.mem_flatMap, List.mem_map, Prod.mk.injEq]
  constructor
  · rintro ⟨c, hc, qid, hqid, rfl, rfl⟩
    exact ⟨c, hc, hqid, rfl⟩
  · rintro ⟨c, hc, hq, rfl⟩
    exact ⟨c, hc, q, hq, rfl, rfl⟩

theorem serKeys_eq (db : DataAccess.LocalJsonDB) (qb : Entities.QuestionBank) :
    (DataAccess.serDoc db qb).questions.map Prod.fst
      = qb.list_chapters.flatMap (fun c => sortList (DataAccess.idsD qb c)) := by
  unfold DataAccess.serDoc
  rw [List.map_flatMap]
  have h : ∀ c : Int, (List.map (Prod.fst ∘ fun qid => (qid, DataAccess.recD db qb c qid))
      (sortList (DataAccess.idsD qb c))) = sortList (DataAccess.idsD qb c) := by
    intro c
    have : (Prod.fst ∘ fun qid : String => (qid, DataAccess.recD db qb c qid)) = id := rfl
    rw [this, List.map_id]
  simp only [List.map_map, h]

theorem serKeys_mem (db : DataAccess.LocalJsonDB) (qb : Entities.QuestionBank)
    (hwf : DataAccess.WF qb) (q : String) :
    q ∈ (DataAccess.serDoc db qb).questions.map Prod.fst ↔ q ∈ qb.qids := by
  rw [serKeys_eq]
  rw [List.mem_flatMap]
  constructor
  · rintro ⟨c, hc, hq⟩
    have hcm : dmem qb.chap_num_to_ids c = true :=
      (hwf.keys_match c) ▸ (list_chapters_mem qb c).mp hc
    exact idsD_sub_qids qb hwf c hcm q ((mem_sortList q _).mp hq)
  · intro hq
    obtain ⟨c0, hc0, hmem, _⟩ := wf_unique_data qb hwf q hq
    refine ⟨c0, (list_chapters_mem qb c0).mpr ((hwf.keys_match c0).symm ▸ hc0), ?_⟩
    exact (mem_sortList q _).mpr hmem

theorem serKeys_nodup (db : DataAccess.LocalJsonDB) (qb : Entities.QuestionBank)
    (hwf : DataAccess.WF qb) :
    ((DataAccess.serDoc db qb).questions.map Prod.fst).Nodup := by
  rw [serKeys_eq]
  apply flat_keys_nodup
  · exact sortList_nodup _ hwf.chapters_nodup
  · intro c hc
    have hcm : dmem qb.chap_num_to_ids c = true :=
      (hwf.keys_match c) ▸ (list_chapters_mem qb c).mp hc
    exact sortList_nodup _
      (hwf.sets_nodup _ (dget_mem _ _ _ (dget_eq_some_getD _ c [] hcm)))
  · intro c hc c' hc' q h1 h2
    have hcm : dmem qb.chap_num_to_ids c = true :=
      (hwf.keys_match c) ▸ (list_chapters_mem qb c).mp hc
    have hcm' : dmem qb.chap_num_to_ids c' = true :=
      (hwf.keys_match c') ▸ (list_chapters_mem qb c').mp hc'
    have hq : q ∈ qb.qids :=
      idsD_sub_qids qb hwf c hcm q ((mem_sortList q _).mp h1)
    obtain ⟨c0, _, _, huniq⟩ := wf_unique_data qb hwf q hq
    rw [huniq c hcm ((mem_sortList q _).mp h1),
      huniq c' hcm' ((mem_sortList q _).mp h2)]

theorem addChapters_serDoc (db : DataAccess.LocalJsonDB)
    (qb : Entities.QuestionBank) (hwf : DataAccess.WF qb) :
    DataAccess.addChaptersFrom (Entities.QuestionBank.create db.img_dir)
        (DataAccess.serDoc db qb).chapters
      = .ok { img_dir := db.img_dir, qids := [],
              chapters := (DataAccess.serDoc db qb).chapters,
              chap_num_to_ids := qb.list_chapters.map (fun c => (c, [])),
              id_to_q := [] } := by
  have hmem : ∀ p ∈ (DataAccess.serDoc db qb).chapters, p ∈ qb.chapters := by
    intro p hp
    unfold DataAccess.serDoc at hp
    simp only [List.mem_map] at hp
    obtain ⟨c, hc, rfl⟩ := hp
    exact dget_mem _ _ _
      (dget_eq_some_getD qb.chapters c "" ((list_chapters_mem qb c).mp hc))
  rw [addChaptersFrom_ok (DataAccess.serDoc db qb).chapters
    (Entities.QuestionBank.create db.img_dir)
    (by
      unfold DataAccess.serDoc
      simp only [List.map_map]
      have : (Prod.fst ∘ fun c => (c, DataAccess.descC qb.chapters c)) = id := rfl
      rw [this, List.map_id]
      exact sortList_nodup _ hwf.chapters_nodup)
    (fun p hp => hwf.chapters_valid p (hmem p hp))
    (by intro p _; simp [Entities.QuestionBank.create, dmem, dget])
    (by intro p hp; simp [Entities.QuestionBank.create] at hp)
    (by intro c; rfl)]
  unfold Entities.QuestionBank.create DataAccess.serDoc
  simp [List.map_map, Function.comp]

theorem serDoc_chapters_keys (db : DataAccess.LocalJsonDB)
    (qb : Entities.QuestionBank) :
    (DataAccess.serDoc db qb).chapters.map Prod.fst = qb.list_chapters := by
  unfold DataAccess.serDoc
  simp only [List.map_map]
  have : (Prod.fst ∘ fun c => (c, DataAccess.descC qb.chapters c)) = id := rfl
  rw [this, List.map_id]

theorem descC_serDoc (db : DataAccess.LocalJsonDB) (qb : Entities.QuestionBank)
    (c : Int) (hc : c ∈ qb.list_chapters) :
    DataAccess.descC (DataAccess.serDoc db qb).chapters c
      = DataAccess.descC qb.chapters c := by
  unfold DataAccess.descC DataAccess.serDoc
  rw [dget_map_self qb.list_chapters _ c hc]
  rfl

theorem dmem_serDoc_chapters (db : DataAccess.LocalJsonDB)
    (qb : Entities.QuestionBank) (c : Int) :
    dmem (DataAccess.serDoc db qb).chapters c = true ↔ c ∈ qb.list_chapters := by
  rw [dmem_iff_mem_keys, serDoc_chapters_keys]

theorem pyBlank_empty : pyBlank "" = true := rfl

theorem roundtrip_core (db : DataAccess.LocalJsonDB)
    (qb : Entities.QuestionBank) (fs : DataAccess.FS)
    (hwf : DataAccess.WF qb) (himg : DataAccess.ImgOK db qb fs) :
    ∃ d fs2 qb2,
      db.save qb fs = .ok (d, fs2)
      ∧ db.load (.doc d) fs2 = .ok qb2
      ∧ qb2.list_chapters = qb.list_chapters
      ∧ qb2.question_count = qb.question_count
      ∧ (∀ c, dmem qb.chapters c = true →
          ∃ s s2, qb.get_qids_by_chapter c = .ok s
            ∧ qb2.get_qids_by_chapter c = .ok s2 ∧ s2.toFinset = s.toFinset)
      ∧ (∀ q ∈ qb.qids, ∃ q1 q2,
          qb.get_question q = .ok q1 ∧ qb2.get_question q = .ok q2
          ∧ q2.question = q1.question
          ∧ q2.answers.toFinset = q1.answers.toFinset
          ∧ q2.correct_answer = q1.correct_answer
          ∧ q2.tags = q1.tags ∧ q2.keywords = q1.keywords) := by
  -- save succeeds; fs2 contains the destination image of every stored question
  obtain ⟨fs2, hsaveok, hfs2⟩ :
      ∃ fs2, db.save qb fs = .ok (DataAccess.serDoc db qb, fs2)
        ∧ ∀ q ∈ qb.qids, ∀ p, (DataAccess.qD qb q).img_path = some p →
            DataAccess.fsExists fs2 (db.make_img_path (DataAccess.qD qb q)) = true := by
    unfold DataAccess.LocalJsonDB.save
    simp only [serialize_to_serDoc db qb hwf, bindOkExcept]
    by_cases hd : db.img_dir = qb.img_dir
    · rw [if_neg (by simp [hd])]
      refine ⟨fs, by simp [bindOkExcept], ?_⟩
      intro q hq p hp
      obtain ⟨hpne, hpfs, hconv⟩ := himg q hq p hp
      rw [← hconv hd]
      exact hpfs
    · rw [if_pos hd]
      obtain ⟨fs2, h1, _, h3⟩ := copyImagesFrom_ok db qb hwf qb.get_qid_list
        (fun q hq => (mem_sortList q _).mp hq) fs
      refine ⟨fs2, by simp only [h1, bindOkExcept], ?_⟩
      intro q hq p hp
      obtain ⟨hpne, hpfs, _⟩ := himg q hq p hp
      exact h3 q ((mem_sortList q _).mpr hq) p hp hpne hpfs
  -- the bank after the chapters pass of load
  set B0 : Entities.QuestionBank :=
    { img_dir := db.img_dir, qids := [],
      chapters := (DataAccess.serDoc db qb).chapters,
      chap_num_to_ids := qb.list_chapters.map (fun c => (c, [])),
      id_to_q := [] } with hB0
  have hB0chaps : B0.chapters = (DataAccess.serDoc db qb).chapters := rfl
  -- every record of the document processes successfully against B0
  have hrecAll : ∀ r ∈ (DataAccess.serDoc db qb).questions,
      ∃ c, DataAccess.get_chapter_num (DataAccess.serDoc db qb) r.1 = .ok c
        ∧ dmem B0.chapters c = true
        ∧ DataAccess.loadQuestion (DataAccess.serDoc db qb) fs2 B0 r.1 r.2
            = .ok (DataAccess.recon r.2 c (DataAccess.descC B0.chapters c), c)
        ∧ r.2.qid = r.1 := by
    rintro ⟨q, rec⟩ hr
    obtain ⟨c, hcCS, hqmem, hrec⟩ := (mem_serQuestions db qb q rec).mp hr
    have hcm : dmem qb.chap_num_to_ids c = true :=
      (hwf.keys_match c) ▸ (list_chapters_mem qb c).mp hcCS
    have hq : q ∈ qb.qids :=
      idsD_sub_qids qb hwf c hcm q ((mem_sortList q _).mp hqmem)
    obtain ⟨c0, hc0, hmem0, huniq⟩ := wf_unique_data qb hwf q hq
    have hcc : c = c0 := huniq c hcm ((mem_sortList q _).mp hqmem)
    subst hcc
    obtain ⟨hqb1, hqb2, hQV⟩ := hwf.q_bound q hq
    have hchap : DataAccess.get_chapter_num (DataAccess.serDoc db qb) q = .ok c :=
      get_chapter_num_serDoc db qb hwf q c hc0 hmem0 huniq
    have hcmemB0 : dmem B0.chapters c = true :=
      (dmem_serDoc_chapters db qb c).mpr hcCS
    refine ⟨c, hchap, hcmemB0, ?_, ?_⟩
    · subst hrec
      have hload := loadQuestion_ok (DataAccess.serDoc db qb) fs2 B0 q
        (DataAccess.recD db qb c q) c (DataAccess.qD qb q).tags
        (DataAccess.qD qb q).keywords hchap hcmemB0
        (by
          show pyBlank (db.make_img_path (DataAccess.qD qb q)) = true ∨ _
          cases hip : (DataAccess.qD qb q).img_path with
          | none =>
              left
              simp only [DataAccess.LocalJsonDB.make_img_path, hip]
              rfl
          | some p =>
              right
              exact hfs2 q hq p hip)
        (by show (DataAccess.qD qb q).qid ≠ ""; exact hQV.qid_ne)
        (by show (DataAccess.qD qb q).question ≠ ""; exact hQV.question_ne)
        (by
          show 2 ≤ (pySet (DataAccess.qD qb q).answers).length
          rw [pySet_eq_self _ hQV.answers_nodup]
          exact hQV.answers_len)
        (by
          show "" ∉ pySet (DataAccess.qD qb q).answers
          rw [pySet_eq_self _ hQV.answers_nodup]
          exact hQV.answers_ne)
        (by
          show (DataAccess.qD qb q).correct_answer ∈ pySet (DataAccess.qD qb q).answers
          rw [pySet_eq_self _ hQV.answers_nodup]
          exact hQV.correct_mem)
        rfl hQV.tags_valid rfl hQV.keywords_valid
      exact hload
    · subst hrec
      exact hqb2
  -- the questions pass of load
  obtain ⟨B2, hAQ, hB2img, hB2chaps, hB2qids, hB2sets, hB2bind, _⟩ :=
    addQuestionsFrom_ok (DataAccess.serDoc db qb) fs2
      (DataAccess.serDoc db qb).questions B0 hrecAll
      (serKeys_nodup db qb hwf)
      (by intro r _; show r.1 ∉ ([] : List String); simp)
      (by
        intro p hp q hq
        simp only [hB0] at hp
        simp only [List.mem_map] at hp
        obtain ⟨c, _, rfl⟩ := hp
        simp at hq)
  refine ⟨DataAccess.serDoc db qb, fs2, B2, hsaveok, ?_, ?_, ?_, ?_, ?_⟩
  -- load returns B2
  · unfold DataAccess.LocalJsonDB.load DataAccess.LocalJsonDB.deserialize_question_bank
    simp only [addChapters_serDoc db qb hwf, bindOkExcept, hAQ]
  -- same list_chapters
  · unfold Entities.QuestionBank.list_chapters
    rw [hB2chaps, hB0chaps, serDoc_chapters_keys]
    exact sortList_eq_of_perm _ _ (sortList_perm _)
  -- same total question_count
  · unfold Entities.QuestionBank.question_count
    rw [hB2qids]
    show (([] : List String) ++ _).length = _
    rw [List.nil_append]
    exact (List.perm_of_nodup_nodup_toFinset_eq (serKeys_nodup db qb hwf)
      hwf.qids_nodup
      (by
        ext x
        simp only [List.mem_toFinset]
        exact serKeys_mem db qb hwf x)).length_eq
  -- same per-chapter membership
  · intro c hc
    have hcCS : c ∈ qb.list_chapters := (list_chapters_mem qb c).mpr hc
    have hcm : dmem qb.chap_num_to_ids c = true := (hwf.keys_match c) ▸ hc
    refine ⟨DataAccess.idsD qb c,
      ((DataAccess.serDoc db qb).questions.filter
        (fun r => decide (DataAccess.get_chapter_num (DataAccess.serDoc db qb) r.1
          = .ok c))).map Prod.fst,
      get_qids_ok qb hwf c hc, ?_, ?_⟩
    · unfold Entities.QuestionBank.get_qids_by_chapter
      rw [if_pos (by rw [hB2chaps, hB0chaps]; exact (dmem_serDoc_chapters db qb c).mpr hcCS)]
      rw [hB2sets c]
      have hdg : dget B0.chap_num_to_ids c = some [] := by
        show dget (qb.list_chapters.map fun c => (c, ([] : List String))) c = some []
        exact dget_map_self qb.list_chapters _ c hcCS
      rw [hdg]
      rfl
    · ext x
      simp only [List.mem_toFinset, List.nil_append, List.mem_map,
        List.mem_filter, decide_eq_true_eq]
      constructor
      · rintro ⟨⟨x1, rec⟩, ⟨hmem, hdec⟩, rfl⟩
        obtain ⟨c', hc'CS, hqmem', hrec'⟩ := (mem_serQuestions db qb x1 rec).mp hmem
        have hcm' : dmem qb.chap_num_to_ids c' = true :=
          (hwf.keys_match c') ▸ (list_chapters_mem qb c').mp hc'CS
        have hx1 : x1 ∈ qb.qids :=
          idsD_sub_qids qb hwf c' hcm' x1 ((mem_sortList x1 _).mp hqmem')
        obtain ⟨c0, hc0, hmem0, huniq⟩ := wf_unique_data qb hwf x1 hx1
        have h1 : c' = c0 := huniq c' hcm' ((mem_sortList x1 _).mp hqmem')
        have h2 : DataAccess.get_chapter_num (DataAccess.serDoc db qb) x1 = .ok c0 :=
          get_chapter_num_serDoc db qb hwf x1 c0 hc0 hmem0 huniq
        have h3 : c = c0 := by
          rw [h2] at hdec
          exact (Except.ok.inj hdec).symm
        rw [h3]
        exact h1 ▸ ((mem_sortList x1 _).mp hqmem')
      · intro hx
        have hxq : x ∈ qb.qids := idsD_sub_qids qb hwf c hcm x hx
        obtain ⟨c0, hc0, hmem0, huniq⟩ := wf_unique_data qb hwf x hxq
        have hcc0 : c = c0 := huniq c hcm hx
        refine ⟨(x, DataAccess.recD db qb c x), ⟨?_, ?_⟩, rfl⟩
        · exact (mem_serQuestions db qb x _).mpr
            ⟨c, hcCS, (mem_sortList x _).mpr hx, rfl⟩
        · rw [get_chapter_num_serDoc db qb hwf x c0 hc0 hmem0 huniq, hcc0]
  -- same per-question fields
  · intro q hq
    obtain ⟨c0, hc0, hmem0, huniq⟩ := wf_unique_data qb hwf q hq
    have hc0CS : c0 ∈ qb.list_chapters :=
      (list_chapters_mem qb c0).mpr ((hwf.keys_match c0).symm ▸ hc0)
    have hmemR : (q, DataAccess.recD db qb c0 q) ∈ (DataAccess.serDoc db qb).questions :=
      (mem_serQuestions db qb q _).mpr ⟨c0, hc0CS, (mem_sortList q _).mpr hmem0, rfl⟩
    have hchap : DataAccess.get_chapter_num (DataAccess.serDoc db qb) q = .ok c0 :=
      get_chapter_num_serDoc db qb hwf q c0 hc0 hmem0 huniq
    have hbind := hB2bind q (DataAccess.recD db qb c0 q) c0 hmemR hchap
    obtain ⟨hqb1, hqb2, hQV⟩ := hwf.q_bound q hq
    refine ⟨DataAccess.qD qb q,
      DataAccess.recon (DataAccess.recD db qb c0 q) c0 (DataAccess.descC B0.chapters c0),
      get_question_ok qb hwf q hq, ?_, rfl, ?_, rfl, rfl, rfl⟩
    · unfold Entities.QuestionBank.get_question
      rw [if_pos (by
        rw [hB2qids]
        show q ∈ ([] : List String) ++ _
        rw [List.nil_append]
        exact (serKeys_mem db qb hwf q).mpr hq), hbind]
    · show (pySet (DataAccess.qD qb q).answers).toFinset = _
      rw [pySet_eq_self _ hQV.answers_nodup]


/-- C1: round-trip persistence.  For every well-formed `QuestionBank`
(the state the pydantic validators certify, with valid stored questions)
whose referenced image files exist on disk (following the
filename-by-qid convention when the database shares the bank's image
directory, so that `save` has nothing to copy), `save` succeeds and
`load` on the written document yields a bank with the same
`list_chapters()`, the same total `question_count()`, the same
per-chapter qid membership, and for every qid the same question text,
answers, correct answer, tags and keywords.  (`entities/question.py` is
spec-modelled: it is absent from the source tree.) -/
theorem save_load_roundtrip (db : DataAccess.LocalJsonDB)
    (qb : Entities.QuestionBank) (fs : DataAccess.FS)
    (hwf : DataAccess.WF qb) (himg : DataAccess.ImgOK db qb fs) :
    ∃ d fs2 qb2,
      db.save qb fs = .ok (d, fs2)
      ∧ db.load (.doc d) fs2 = .ok qb2
      ∧ qb2.list_chapters = qb.list_chapters
      ∧ qb2.question_count = qb.question_count
      ∧ (∀ c, dmem qb.chapters c = true →
          ∃ s s2, qb.get_qids_by_chapter c = .ok s
            ∧ qb2.get_qids_by_chapter c = .ok s2 ∧ s2.toFinset = s.toFinset)
      ∧ (∀ q ∈ qb.qids, ∃ q1 q2,
          qb.get_question q = .ok q1 ∧ qb2.get_question q = .ok q2
          ∧ q2.question = q1.question
          ∧ q2.answers.toFinset = q1.answers.toFinset
          ∧ q2.correct_answer = q1.correct_answer
          ∧ q2.tags = q1.tags ∧ q2.keywords = q1.keywords) :=
  roundtrip_core db qb fs hwf himg

theorem c1qb_wf : DataAccess.WF c1qb := by
  refine ⟨by decide, by decide, by decide, ?_, by decide, by decide, by decide,
    by decide, ?_⟩
  · intro c
    unfold c1qb dmem dget
    by_cases h : (1 : Int) = c <;> simp [h]
    rfl
  · intro q hq
    have hq1 : q = "q1" := by simpa [c1qb] using hq
    subst hq1
    refine ⟨rfl, rfl, ?_⟩
    exact ⟨by decide, by decide, by decide, by decide, by decide, by decide,
      by decide, by decide⟩

theorem c1qb_imgok : DataAccess.ImgOK c1db c1qb [] := by
  intro q hq p hp
  have hq1 : q = "q1" := by simpa [c1qb] using hq
  subst hq1
  simp [DataAccess.qD, c1qb, dget, Entities.sampleEQuestion] at hp

theorem save_load_roundtrip_witness :
    ∃ d fs2 qb2,
      c1db.save c1qb [] = .ok (d, fs2)
      ∧ c1db.load (.doc d) fs2 = .ok qb2
      ∧ qb2.list_chapters = c1qb.list_chapters
      ∧ qb2.question_count = c1qb.question_count
      ∧ (∀ c, dmem c1qb.chapters c = true →
          ∃ s s2, c1qb.get_qids_by_chapter c = .ok s
            ∧ qb2.get_qids_by_chapter c = .ok s2 ∧ s2.toFinset = s.toFinset)
      ∧ (∀ q ∈ c1qb.qids, ∃ q1 q2,
          c1qb.get_question q = .ok q1 ∧ qb2.get_question q = .ok q2
          ∧ q2.question = q1.question
          ∧ q2.answers.toFinset = q1.answers.toFinset
          ∧ q2.correct_answer = q1.correct_answer
          ∧ q2.tags = q1.tags ∧ q2.keywords = q1.keywords) :=
  save_load_roundtrip c1db c1qb [] c1qb_wf c1qb_imgok

theorem bindErrExcept {ε α β : Type} (e : ε) (f : α → Except ε β) :
    (Except.error (α := α) e >>= f) = .error e := rfl

theorem add_question_ok_parts (qb : Entities.QuestionBank)
    (q : Entities.Question) (c : Int) (h : dmem qb.chapters c = true) :
    (qb.add_question q c).2 = none
    ∧ (qb.add_question q c).1.chapters = qb.chapters := by
  unfold Entities.QuestionBank.add_question
  rw [if_neg (by simp [h])]
  exact ⟨rfl, rfl⟩

theorem addQuestionsFrom_missing (d : DataAccess.JsonDoc) (fs : DataAccess.FS) :
    ∀ (R : List (String × DataAccess.QuestionRecord))
      (B : Entities.QuestionBank),
    B.chapters = d.chapters →
    (∀ r ∈ R, DataAccess.RecWF d r) →
    ∀ p, DataAccess.firstMissingImg fs R = some p →
    DataAccess.addQuestionsFrom d fs B R
      = .error (.fileNotFoundError ("Image file not found: " ++ p ++ ". ")) := by
  intro R
  induction R with
  | nil =>
      intro B _ _ p hp
      simp [DataAccess.firstMissingImg] at hp
  | cons r rest ih =>
      obtain ⟨qid, rec⟩ := r
      intro B hB hwfR p hp
      obtain ⟨c, hchap, hcd, hqne, hqqne, hlen, hne, hca, ⟨t, ht, htv⟩, ⟨k, hk, hkv⟩⟩ :=
        hwfR (qid, rec) (by simp)
      have hcmem : dmem B.chapters c = true := by rw [hB]; exact hcd
      have hstep : ∀ himg : pyBlank rec.img_path = true
            ∨ DataAccess.fsExists fs rec.img_path = true,
          DataAccess.firstMissingImg fs rest = some p →
          DataAccess.addQuestionsFrom d fs B ((qid, rec) :: rest)
            = .error (.fileNotFoundError ("Image file not found: " ++ p ++ ". ")) := by
        intro himg hp'
        conv_lhs => rw [DataAccess.addQuestionsFrom]
        rw [loadQuestion_ok d fs B qid rec c t k hchap hcmem himg hqne hqqne
          hlen hne hca ht htv hk hkv]
        rw [bindOkExcept]
        simp only
        rw [(add_question_ok_parts B _ c hcmem).1]
        exact ih _ (((add_question_ok_parts B _ c hcmem).2).trans hB) 
          (fun r' hr' => hwfR r' (by simp [hr'])) p hp'
      by_cases hblank : pyBlank rec.img_path = true
      · exact hstep (Or.inl hblank) (by
          unfold DataAccess.firstMissingImg at hp
          rwa [if_pos hblank] at hp)
      · by_cases hex : DataAccess.fsExists fs rec.img_path = true
        · exact hstep (Or.inr hex) (by
            unfold DataAccess.firstMissingImg at hp
            rwa [if_neg hblank, if_pos hex] at hp)
        · have hpp : p = rec.img_path := by
            unfold DataAccess.firstMissingImg at hp
            rw [if_neg hblank, if_neg hex] at hp
            exact (Option.some.inj hp).symm
          subst hpp
          conv_lhs => rw [DataAccess.addQuestionsFrom]
          have hload : DataAccess.loadQuestion d fs B qid rec
              = .error (.fileNotFoundError
                  ("Image file not found: " ++ rec.img_path ++ ". ")) := by
            unfold DataAccess.loadQuestion DataAccess.get_img_path
            rw [hchap, bindOkExcept, if_neg hblank, if_neg hex]
            rfl
          rw [hload]
          rfl

/-- C7: for every structurally well-formed stored document in which some
question record's `img_path` is non-blank but names a file that does not
exist on disk, `load()` raises an error naming the missing path (a
`FileNotFoundError` from `_get_img_path`, surfaced wrapped in
`ConnectionError` by `load`), instead of silently replacing the image
path with `None`. -/
theorem load_missing_image_raises (db : DataAccess.LocalJsonDB)
    (fs : DataAccess.FS) (d : DataAccess.JsonDoc) (p : String)
    (hwf : DataAccess.WFdoc d)
    (hp : DataAccess.firstMissingImg fs d.questions = some p) :
    db.load (.doc d) fs
      = .error (.connectionError
          ("Error loading question bank: Image file not found: " ++ p ++ ". ")) := by
  have hdes : db.deserialize_question_bank d fs
      = .error (.fileNotFoundError ("Image file not found: " ++ p ++ ". ")) := by
    unfold DataAccess.LocalJsonDB.deserialize_question_bank
    show (DataAccess.addChaptersFrom (Entities.QuestionBank.create db.img_dir)
        d.chapters >>= fun qb => DataAccess.addQuestionsFrom d fs qb d.questions) = _
    rw [addChaptersFrom_ok d.chapters (Entities.QuestionBank.create db.img_dir)
      hwf.chapters_nodup hwf.chapters_valid
      (by intro q _; rfl)
      (by intro q hq; simp [Entities.QuestionBank.create] at hq)
      (by intro c; rfl)]
    rw [bindOkExcept]
    rw [addQuestionsFrom_missing d fs d.questions _
      (by simp [Entities.QuestionBank.create]) hwf.records_wf p hp]
  unfold DataAccess.LocalJsonDB.load
  show (match db.deserialize_question_bank d fs with
    | Except.ok qb => Except.ok qb
    | Except.error e =>
        Except.error (PyErr.connectionError ("Error loading question bank: " ++ e.msg))) = _
  rw [hdes]
  rfl

theorem load_missing_image_raises_witness :
    DataAccess.LocalJsonDB.load c1db (.doc c7doc) []
      = .error (.connectionError
          ("Error loading question bank: Image file not found: "
            ++ "/non/existent/image.jpg" ++ ". ")) :=
  load_missing_image_raises c1db [] c7doc "/non/existent/image.jpg"
    ⟨by decide, by decide, by
      intro r hr
      have hr1 : r = ("q1",
          { qid := "q1", question := "Test?", answers := ["A", "B"],
            correct_answer := "A", img_path := "/non/existent/image.jpg",
            chapter := 1, tags := some [], keywords := some [] }) := by
        simpa [c7doc] using hr
      subst hr1
      exact ⟨1, by decide, by decide, by decide, by decide, by decide,
        by decide, by decide, ⟨[], rfl, by decide⟩, ⟨[], rfl, by decide⟩⟩⟩
    (by decide)


theorem save_ok_serDoc (db : DataAccess.LocalJsonDB)
    (qb : Entities.QuestionBank) (fs : DataAccess.FS)
    (hwf : DataAccess.WF qb) :
    ∃ fs2, db.save qb fs = .ok (DataAccess.serDoc db qb, fs2) := by
  unfold DataAccess.LocalJsonDB.save
  simp only [serialize_to_serDoc db qb hwf, bindOkExcept]
  by_cases hd : db.img_dir = qb.img_dir
  · rw [if_neg (by simp [hd])]
    exact ⟨fs, by simp [bindOkExcept]⟩
  · rw [if_pos hd]
    obtain ⟨fs2, h1, _, _⟩ := copyImagesFrom_ok db qb hwf qb.get_qid_list
      (fun q hq => (mem_sortList q _).mp hq) fs
    exact ⟨fs2, by simp only [h1, bindOkExcept]⟩

/-- C10 (amended): the `LocalJsonDB` serializer stores each question's
tags and keywords (read through `get_tags`/`get_keywords`) and the
loader restores both for every record carrying a `"tags"` key.  With the
spec-modelled `entities.question.Question` — which provides the
keywords accessors and is the class `local_json_db.py` actually imports —
`save` succeeds on banks containing questions and `load` succeeds on
documents whose records include tags and keywords. -/
theorem serializer_and_loader_handle_keywords (db : DataAccess.LocalJsonDB)
    (qb : Entities.QuestionBank) (fs : DataAccess.FS)
    (hwf : DataAccess.WF qb) (himg : DataAccess.ImgOK db qb fs) :
    ∃ d fs2, db.save qb fs = .ok (d, fs2)
      ∧ (∀ r ∈ d.questions,
          r.2.keywords = some (DataAccess.qD qb r.1).keywords
          ∧ r.2.tags = some (DataAccess.qD qb r.1).tags)
      ∧ ∃ qb2, db.load (.doc d) fs2 = .ok qb2 := by
  obtain ⟨d, fs2, qb2, h1, h2, _⟩ := roundtrip_core db qb fs hwf himg
  obtain ⟨fsY, hsave2⟩ := save_ok_serDoc db qb fs hwf
  rw [h1] at hsave2
  have hd : d = DataAccess.serDoc db qb :=
    congrArg Prod.fst (Except.ok.inj hsave2)
  subst hd
  refine ⟨DataAccess.serDoc db qb, fs2, h1, ?_, qb2, h2⟩
  rintro ⟨q, rec⟩ hr
  obtain ⟨c, _, _, rfl⟩ := (mem_serQuestions db qb q rec).mp hr
  exact ⟨rfl, rfl⟩

theorem serializer_and_loader_handle_keywords_witness :
    ∃ d fs2, c1db.save c1qb [] = .ok (d, fs2)
      ∧ (∀ r ∈ d.questions,
          r.2.keywords = some (DataAccess.qD c1qb r.1).keywords
          ∧ r.2.tags = some (DataAccess.qD c1qb r.1).tags)
      ∧ ∃ qb2, c1db.load (.doc d) fs2 = .ok qb2 :=
  serializer_and_loader_handle_keywords c1db c1qb [] c1qb_wf c1qb_imgok

/-- C10 counterexample: on a concrete bank holding one question, `save`
succeeds (raising no AttributeError), and `load` succeeds on its written
document even though every record carries `tags` and `keywords` keys —
refuting the claim as stated at this input. -/
theorem save_load_with_keywords_counterexample :
    c1qb.question_count = 1
    ∧ (c1db.save c1qb []).isOk = true
    ∧ (∀ r ∈ (DataAccess.serDoc c1db c1qb).questions,
        r.2.tags.isSome ∧ r.2.keywords.isSome)
    ∧ (c1db.load (.doc (DataAccess.serDoc c1db c1qb)) []).isOk = true := by
  decide
